import Mathlib

/-!
Clober serial driver: feedback parsing, kinematics and odometry

A shallow embedding of `clober_serial/src/clober_serial.cpp`.

* C++ `float`/`double` values are modelled by an arbitrary linearly ordered
  field `K` (exact arithmetic); evaluating at `K = ℚ` runs the definitions,
  evaluating at `K = ℝ` gives access to the genuine `cos`, `sin` and `π`.
* The member variables of `CloberSerial` that the core logic touches form the
  record `CloberSerial K`; every member function becomes a function on it.
* `ros::Time::now()` is an explicit argument `now`, the line returned by
  `serial_->readline` is an explicit argument `msg`, and the byte buffers handed
  to `serial_->write` are returned as a list of strings.
* `boost::lexical_cast<float>` is a parameter `cast : List Char → Option K`
  (`none` stands for `bad_lexical_cast`), the helper object `utils_` is a
  parameter `Utils K`, and `cos`/`sin` are a parameter `Trig K`.
-/

namespace Clober

/-! ## Data model -/

/-- Per-wheel record (`config_.left_motor`, `config_.right_motor`). -/
structure Motor (K : Type) where
  rpm : K
  speed : K
  position_rad : K
  position_meter_curr : K
  position_meter_prev : K
deriving DecidableEq, Repr

/-- Encoder parameters (`config_.encoder`). -/
structure Encoder (K : Type) where
  ppr : K
deriving DecidableEq, Repr

/-- The record `config_`: robot parameters together with the two wheel records. -/
structure Config (K : Type) where
  WIDTH : K
  WheelRadius : K
  MAX_SPEED : K
  MAX_RPM : K
  encoder : Encoder K
  left_motor : Motor K
  right_motor : Motor K
deriving DecidableEq, Repr

/-- The member variables of class `CloberSerial` used by the core logic. -/
structure CloberSerial (K : Type) where
  config_ : Config K
  odom_mode_ : Int
  trigger_ : Bool
  timestamp_ : K
  posX_ : K
  posY_ : K
  heading_ : K
  linearVel_ : K
  angularVel_ : K
deriving DecidableEq, Repr

/-- The velocity command handed to `on_motor_move`. -/
structure MotorCommand (K : Type) where
  linearVel : K
  angularVel : K
deriving DecidableEq, Repr

/-- The unit-conversion helper object `utils_`; its source file is not part of
the sources at hand, so its three functions are taken as parameters. -/
structure Utils (K : Type) where
  toVelocity : K → K
  toRad : K → K → K
  toRPM : K → K

/-- The `cos` and `sin` of the C math library. -/
structure Trig (K : Type) where
  cos : K → K
  sin : K → K

/-- Modelled from the spec: the helper `utils_.toRad` (its source is missing),
"ticks → rad = ticks/PPR × 2π", with the value of π passed in. -/
def toRad {K : Type} [LinearOrderedField K] (pi : K) (ticks ppr : K) : K :=
  ticks / ppr * (2 * pi)

/-- Modelled from the spec: the helper object `utils_` (its source is missing).
`toRad` is the spec's formula; `toVelocity` ("RPM → rad/s") and `toRPM`
("speedToRPM") are the unit conversions between revolutions per minute and
radians per second. -/
def specUtils {K : Type} [LinearOrderedField K] (pi : K) : Utils K where
  toVelocity := fun rpm => rpm * (2 * pi) / 60
  toRad := toRad pi
  toRPM := fun speed => speed * 60 / (2 * pi)

/-! ## Kinematics conversions -/

section Kinematics

variable {K : Type} [LinearOrderedField K]

/-- `CloberSerial::toVW`: stores the robot velocity computed from the two wheel
linear speeds. -/
def toVW (s : CloberSerial K) (l_speed r_speed : K) : CloberSerial K :=
  { s with
    linearVel_ := (l_speed + r_speed) / 2
    angularVel_ := (r_speed - l_speed) / s.config_.WIDTH }

/-- `CloberSerial::toWheelSpeed`: the pair `(l_speed, r_speed)` of wheel angular
speeds. -/
def toWheelSpeed (c : Config K) (v w : K) : K × K :=
  let r_speed := (v + (c.WIDTH * w / 2)) / c.WheelRadius
  let l_speed := (v - (c.WIDTH * w / 2)) / c.WheelRadius
  (l_speed, r_speed)

/-- `CloberSerial::limitMaxSpeed`; `abs` is the floating-point absolute value
(`std::abs(float)`). -/
def limitMaxSpeed (c : Config K) (speed : K) : K :=
  let max := c.MAX_SPEED / c.WheelRadius
  if abs speed > max then
    if speed > 0 then max else -max
  else speed

end Kinematics

/-! ## Odometry integration -/

section Odometry

variable {K : Type} [LinearOrderedField K]

/-- `CloberSerial::updatePose()` (the velocity-Euler rule of mode 0), with the
value of `ros::Time::now()` passed in as `now`. -/
def updatePose (t : Trig K) (now : K) (s : CloberSerial K) : CloberSerial K :=
  if !s.trigger_ then
    { s with timestamp_ := now, trigger_ := true }
  else
    let dT := now - s.timestamp_
    let x := s.linearVel_ * dT * t.cos s.heading_
    let y := s.linearVel_ * dT * t.sin s.heading_
    let theta := s.angularVel_ * dT
    { s with
      timestamp_ := now
      posX_ := s.posX_ + x
      posY_ := s.posY_ + y
      heading_ := s.heading_ + theta }

/-- The local `R` of `CloberSerial::updatePose(float dL, float dR)`
(the statements from `float R = 0.0;` to the end of the `if`/`else`). -/
def turnRadius (c : Config K) (dL dR : K) : K :=
  if (dR - dL) < 0.0001 then 0
  else (c.WIDTH / 2) * ((dL + dR) / (dR - dL))

/-- The local `Wdt` of `CloberSerial::updatePose(float dL, float dR)`: it is
assigned in mode 1 and in mode 2 and is left uninitialised (`none`) otherwise. -/
def turnAngle (c : Config K) (odom_mode : Int) (dT dL dR : K) : Option K :=
  if odom_mode = 1 then
    let W := (dR - dL) / c.WIDTH
    some (W * dT)
  else if odom_mode = 2 then
    some ((dR - dL) / c.WIDTH)
  else none

/-- `CloberSerial::updatePose(float dL, float dR)` (the arc rule of modes 1
and 2), with the value of `ros::Time::now()` passed in as `now`.  The result is
`none` when the uninitialised `Wdt` would be read. -/
def updatePoseArc (t : Trig K) (now : K) (s : CloberSerial K) (dL dR : K) :
    Option (CloberSerial K) :=
  if !s.trigger_ then
    some { s with timestamp_ := now, trigger_ := true }
  else
    let dT := now - s.timestamp_
    let x := s.posX_
    let y := s.posY_
    let theta := s.heading_
    let R := turnRadius s.config_ dL dR
    match turnAngle s.config_ s.odom_mode_ dT dL dR with
    | none => none
    | some Wdt =>
      let ICCx := x - (R * t.sin theta)
      let ICCy := y + (R * t.cos theta)
      some { s with
        timestamp_ := now
        posX_ := (t.cos Wdt * (x - ICCx)) - (t.sin Wdt * (y - ICCy)) + ICCx
        posY_ := (t.sin Wdt * (x - ICCx)) + (t.cos Wdt * (y - ICCy)) + ICCy
        heading_ := theta + Wdt }

end Odometry

/-! ## Feedback parsing -/

/-- The result of `boost::split(feedbacks, msg, is_any_of(sep))` on a line given
as a list of characters: the fields between consecutive separators (one more
field than there are separators, empty fields kept). -/
def split (sep : Char) : List Char → List (List Char)
  | [] => [[]]
  | c :: cs =>
    if c = sep then [] :: split sep cs
    else
      match split sep cs with
      | [] => [[c]]
      | f :: fs => (c :: f) :: fs

/-- The result of `boost::lexical_cast<size_t>` on a single character: a decimal
digit converts to its value, every other character throws (`none`). -/
def lexicalCastSizeT (c : Char) : Option Nat :=
  if c.isDigit then some (c.toNat - 48) else none

/-- The structural conditions under which `parse` reaches the field casts:
the line is longer than 2 characters, starts with `F`, has a decimal digit at
index 1 and `:` at index 2, and splits on `:` into more than 8 fields. -/
def WellFramed (msg : String) : Prop :=
  msg.toList.length > 2 ∧ msg.toList.getD 0 ' ' = 'F' ∧ msg.toList.getD 2 ' ' = ':' ∧
    (msg.toList.getD 1 ' ').isDigit = true ∧ (split ':' msg.toList).length > 8

instance (msg : String) : Decidable (WellFramed msg) := by
  unfold WellFramed
  exact inferInstance

section Parse

variable {K : Type} [LinearOrderedField K]

/-- `CloberSerial::parse`, on the line `msg` returned by `readline`.  The
statements of the `try` block run in order; a cast that throws ends the call
with the state reached so far (the `catch` block is empty). -/
def parse (cast : List Char → Option K) (u : Utils K) (t : Trig K) (now : K)
    (msg : String) (s : CloberSerial K) : Option (CloberSerial K) :=
  let m := msg.toList
  if m.length > 2 then
    if m.getD 0 ' ' = 'F' ∧ m.getD 2 ' ' = ':' then
      match lexicalCastSizeT (m.getD 1 ' ') with
      | none => some s
      | some _ =>
        let feedbacks := split ':' m
        if feedbacks.length > 8 then
          match cast (feedbacks.getD 5 []) with
          | none => some s
          | some rpmL =>
          let s := { s with config_.left_motor.rpm := rpmL }
          match cast (feedbacks.getD 5 []) with
          | none => some s
          | some rpmL2 =>
          let s := { s with config_.left_motor.speed := u.toVelocity rpmL2 }
          match cast (feedbacks.getD 6 []) with
          | none => some s
          | some rpmR =>
          let s := { s with config_.right_motor.rpm := rpmR }
          match cast (feedbacks.getD 6 []) with
          | none => some s
          | some rpmR2 =>
          let s := { s with config_.right_motor.speed := u.toVelocity rpmR2 }
          match cast (feedbacks.getD 7 []) with
          | none => some s
          | some ticksL =>
          let s := { s with config_.left_motor.position_rad :=
            s.config_.left_motor.position_rad + u.toRad ticksL s.config_.encoder.ppr }
          let s := { s with config_.left_motor.position_meter_curr :=
            s.config_.left_motor.position_rad * s.config_.WheelRadius }
          match cast (feedbacks.getD 8 []) with
          | none => some s
          | some ticksR =>
          let s := { s with config_.right_motor.position_rad :=
            s.config_.right_motor.position_rad + u.toRad ticksR s.config_.encoder.ppr }
          let s := { s with config_.right_motor.position_meter_curr :=
            s.config_.right_motor.position_rad * s.config_.WheelRadius }
          let dl := s.config_.left_motor.position_meter_curr -
            s.config_.left_motor.position_meter_prev
          let dr := s.config_.right_motor.position_meter_curr -
            s.config_.right_motor.position_meter_prev
          let l_speed := s.config_.left_motor.speed * s.config_.WheelRadius
          let r_speed := s.config_.right_motor.speed * s.config_.WheelRadius
          let s := toVW s l_speed r_speed
          let r : Option (CloberSerial K) :=
            if s.odom_mode_ = 0 then some (updatePose t now s)
            else if s.odom_mode_ = 1 then updatePoseArc t now s l_speed r_speed
            else if s.odom_mode_ = 2 then updatePoseArc t now s dl dr
            else some (updatePose t now s)
          match r with
          | none => none
          | some s =>
          let s := { s with config_.left_motor.position_meter_prev :=
            s.config_.left_motor.position_meter_curr }
          some { s with config_.right_motor.position_meter_prev :=
            s.config_.right_motor.position_meter_curr }
        else some s
    else some s
  else some s

/-- The state reached by `parse` after the four fields have been cast to
`rpmL`, `rpmR`, `ticksL`, `ticksR` and `toVW` has run, i.e. just before the
`switch (odom_mode_)`. -/
def decodeFields (u : Utils K) (s : CloberSerial K) (rpmL rpmR ticksL ticksR : K) :
    CloberSerial K :=
  let radL := s.config_.left_motor.position_rad + u.toRad ticksL s.config_.encoder.ppr
  let radR := s.config_.right_motor.position_rad + u.toRad ticksR s.config_.encoder.ppr
  toVW
    { s with
      config_.left_motor.rpm := rpmL
      config_.left_motor.speed := u.toVelocity rpmL
      config_.left_motor.position_rad := radL
      config_.left_motor.position_meter_curr := radL * s.config_.WheelRadius
      config_.right_motor.rpm := rpmR
      config_.right_motor.speed := u.toVelocity rpmR
      config_.right_motor.position_rad := radR
      config_.right_motor.position_meter_curr := radR * s.config_.WheelRadius }
    (u.toVelocity rpmL * s.config_.WheelRadius) (u.toVelocity rpmR * s.config_.WheelRadius)

/-- The `switch (odom_mode_)` of `parse`, run on the state `s` reached just
before it (the locals `l_speed`, `r_speed`, `dl`, `dr` are recomputed from `s`). -/
def integrate (t : Trig K) (now : K) (s : CloberSerial K) : Option (CloberSerial K) :=
  let dl := s.config_.left_motor.position_meter_curr - s.config_.left_motor.position_meter_prev
  let dr := s.config_.right_motor.position_meter_curr - s.config_.right_motor.position_meter_prev
  let l_speed := s.config_.left_motor.speed * s.config_.WheelRadius
  let r_speed := s.config_.right_motor.speed * s.config_.WheelRadius
  if s.odom_mode_ = 0 then some (updatePose t now s)
  else if s.odom_mode_ = 1 then updatePoseArc t now s l_speed r_speed
  else if s.odom_mode_ = 2 then updatePoseArc t now s dl dr
  else some (updatePose t now s)

/-- The last two assignments of the `try` block of `parse`: each wheel's
previous displacement becomes its current displacement. -/
def storePrev (s : CloberSerial K) : CloberSerial K :=
  { s with
    config_.left_motor.position_meter_prev := s.config_.left_motor.position_meter_curr
    config_.right_motor.position_meter_prev := s.config_.right_motor.position_meter_curr }

/-- `CloberSerial::read_serial`: the loop `while (ros::ok()) parse();`, run on
the finite list of lines read so far, each paired with the value of
`ros::Time::now()` at the time it is processed. -/
def read_serial (cast : List Char → Option K) (u : Utils K) (t : Trig K) :
    List (K × String) → CloberSerial K → Option (CloberSerial K)
  | [], s => some s
  | (now, msg) :: rest, s =>
    match parse cast u t now msg s with
    | none => none
    | some s' => read_serial cast u t rest s'

/-- A valid frame: a well-framed line whose fields 5 to 8 all cast. -/
def ValidFrame (cast : List Char → Option K) (msg : String) : Prop :=
  WellFramed msg ∧
    (cast ((split ':' msg.toList).getD 5 [])).isSome = true ∧
    (cast ((split ':' msg.toList).getD 6 [])).isSome = true ∧
    (cast ((split ':' msg.toList).getD 7 [])).isSome = true ∧
    (cast ((split ':' msg.toList).getD 8 [])).isSome = true

instance (cast : List Char → Option K) (msg : String) : Decidable (ValidFrame cast msg) := by
  unfold ValidFrame
  exact inferInstance

/-- The mode-0 integrator run `dts.length` times with the stored velocity held
fixed, the `i`-th call happening `dts[i]` after the previous one. -/
def eulerSteps (t : Trig K) (dts : List K) (s : CloberSerial K) : CloberSerial K :=
  dts.foldl (fun s dt => updatePose t (s.timestamp_ + dt) s) s

end Parse

/-! ## Command encoding -/

section Command

variable {K : Type} [LinearOrderedField K]

/-- `CloberSerial::sendRPM`: the buffer written to the serial port.  `fmt` is
the stream formatting of a `float` (`msg << rpm.first`). -/
def sendRPM (fmt : K → String) (channel : Int × Int) (rpm : K × K) : String :=
  "!G " ++ toString (channel.1 + 1) ++ " " ++ fmt rpm.1 ++ "\r" ++
    "!G " ++ toString (channel.2 + 1) ++ " " ++ fmt rpm.2 ++ "\r"

/-- `CloberSerial::sendStop`: the buffer written to the serial port. -/
def sendStop (channel : Int × Int) : String :=
  "!MS " ++ toString (channel.1 + 1) ++ "\r" ++ "!MS " ++ toString (channel.2 + 1) ++ "\r"

/-- The two per-mille RPM fractions `wheel_rpm` computed by
`CloberSerial::on_motor_move`. -/
def wheelRpm (c : Config K) (u : Utils K) (cmd : MotorCommand K) : K × K :=
  let wheel_speed := toWheelSpeed c cmd.linearVel cmd.angularVel
  let wheel_speed := (limitMaxSpeed c wheel_speed.1, limitMaxSpeed c wheel_speed.2)
  (u.toRPM wheel_speed.1 * 1000 / c.MAX_RPM, u.toRPM wheel_speed.2 * 1000 / c.MAX_RPM)

/-- `CloberSerial::on_motor_move`: the buffers handed to `serial_->write`, in
the order they are written. -/
def on_motor_move (c : Config K) (u : Utils K) (fmt : K → String) (cmd : MotorCommand K) :
    List String :=
  let wheel_rpm := wheelRpm c u cmd
  let w1 := [sendRPM fmt (0, 1) (wheel_rpm.1, wheel_rpm.2)]
  if abs wheel_rpm.1 < 0.0001 ∧ abs wheel_rpm.2 < 0.0001 then
    w1 ++ [sendStop (0, 1)]
  else w1

end Command

/-! ## Concrete inputs -/

section Samples

variable {K : Type} [LinearOrderedField K]

/-- A decimal-digit reader used to instantiate the `cast` parameter on concrete
frames: a non-empty string of decimal digits converts to its value, anything
else throws.  (`boost::lexical_cast<float>` agrees with it on such strings and
also rejects strings that contain a letter such as `x`.) -/
def castDigits (cs : List Char) : Option K :=
  if cs ≠ [] ∧ cs.all Char.isDigit = true then
    some ((cs.foldl (fun n c => 10 * n + (c.toNat - 48)) 0 : Nat) : K)
  else none

/-- A wheel record with every member zero (the state after start-up). -/
def zeroMotor : Motor K := ⟨0, 0, 0, 0, 0⟩

/-- A configuration with the given parameters and both wheel records zero. -/
def mkConfig (width wheelRadius maxSpeed maxRpm ppr : K) : Config K :=
  ⟨width, wheelRadius, maxSpeed, maxRpm, ⟨ppr⟩, zeroMotor, zeroMotor⟩

/-- A driver state with the given configuration, mode, trigger flag and pose;
timestamp and velocity are zero. -/
def mkState (c : Config K) (mode : Int) (trigger : Bool) (x y heading : K) : CloberSerial K :=
  ⟨c, mode, trigger, 0, x, y, heading, 0, 0⟩

/-- The conversions of `specUtils` with the rational approximation `355/113`
of π, for running the definitions over `ℚ`. -/
def sampleUtils : Utils ℚ := specUtils (355 / 113)

/-- The values of `cos` and `sin` at angle 0, as constant functions, for running
the definitions over `ℚ` on inputs whose angles are all 0. -/
def sampleTrig : Trig ℚ := ⟨fun _ => 1, fun _ => 0⟩

end Samples

end Clober

/-! ## Theorems -/

namespace Clober

section KinematicsTheorems

variable {K : Type} [LinearOrderedField K]

/-- C4: with positive wheel separation and wheel radius, converting a velocity
pair `(v, w)` to wheel angular speeds with `toWheelSpeed`, multiplying each by the
wheel radius and feeding the two wheel linear speeds to `toVW` stores exactly
`v` as linear velocity and `w` as angular velocity. -/
theorem toVW_toWheelSpeed_roundtrip (s : CloberSerial K) (v w : K)
    (hW : 0 < s.config_.WIDTH) (hr : 0 < s.config_.WheelRadius) :
    (toVW s ((toWheelSpeed s.config_ v w).1 * s.config_.WheelRadius)
        ((toWheelSpeed s.config_ v w).2 * s.config_.WheelRadius)).linearVel_ = v ∧
    (toVW s ((toWheelSpeed s.config_ v w).1 * s.config_.WheelRadius)
        ((toWheelSpeed s.config_ v w).2 * s.config_.WheelRadius)).angularVel_ = w := by
  have hW0 : s.config_.WIDTH ≠ 0 := ne_of_gt hW
  have hr0 : s.config_.WheelRadius ≠ 0 := ne_of_gt hr
  simp only [toVW, toWheelSpeed]
  constructor
  · field_simp
    ring
  · field_simp
    ring

/-- Witness for C4 at `v = 2`, `w = -3`, wheel separation `1/2`, wheel radius `1/10`. -/
theorem toVW_toWheelSpeed_roundtrip_witness :
    (toVW (mkState (mkConfig (1/2 : ℚ) (1/10) 1 1 1) 0 true 0 0 0)
        ((toWheelSpeed (mkConfig (1/2 : ℚ) (1/10) 1 1 1) 2 (-3)).1 * (1/10))
        ((toWheelSpeed (mkConfig (1/2 : ℚ) (1/10) 1 1 1) 2 (-3)).2 * (1/10))).linearVel_ = 2 ∧
    (toVW (mkState (mkConfig (1/2 : ℚ) (1/10) 1 1 1) 0 true 0 0 0)
        ((toWheelSpeed (mkConfig (1/2 : ℚ) (1/10) 1 1 1) 2 (-3)).1 * (1/10))
        ((toWheelSpeed (mkConfig (1/2 : ℚ) (1/10) 1 1 1) 2 (-3)).2 * (1/10))).angularVel_ = -3 :=
  toVW_toWheelSpeed_roundtrip (mkState (mkConfig (1/2 : ℚ) (1/10) 1 1 1) 0 true 0 0 0) 2 (-3)
    (by norm_num [mkState, mkConfig]) (by norm_num [mkState, mkConfig])

/-- C5: with positive maximum speed and wheel radius, `limitMaxSpeed` is
idempotent. -/
theorem limitMaxSpeed_idempotent (c : Config K) (speed : K)
    (hmax : 0 < c.MAX_SPEED) (hr : 0 < c.WheelRadius) :
    limitMaxSpeed c (limitMaxSpeed c speed) = limitMaxSpeed c speed := by
  have hpos : 0 < c.MAX_SPEED / c.WheelRadius := div_pos hmax hr
  unfold limitMaxSpeed
  simp only []
  by_cases h1 : abs speed > c.MAX_SPEED / c.WheelRadius
  · by_cases h2 : speed > 0
    · simp [h1, h2, abs_of_pos hpos]
    · simp [h1, h2, abs_of_pos hpos]
  · simp [h1]

/-- Witness for C5 at maximum speed `1`, wheel radius `1/2` and speed `-7`. -/
theorem limitMaxSpeed_idempotent_witness :
    limitMaxSpeed (mkConfig (1 : ℚ) (1/2) 1 1 1)
      (limitMaxSpeed (mkConfig (1 : ℚ) (1/2) 1 1 1) (-7)) =
    limitMaxSpeed (mkConfig (1 : ℚ) (1/2) 1 1 1) (-7) :=
  limitMaxSpeed_idempotent (mkConfig (1 : ℚ) (1/2) 1 1 1) (-7)
    (by norm_num [mkConfig]) (by norm_num [mkConfig])

/-- C6: with positive maximum speed and wheel radius and
`max = MAX_SPEED / WheelRadius`, the result of `limitMaxSpeed` lies in
`[-max, max]`; for `|speed| > max` it has magnitude exactly `max` and the sign
of `speed`; for `|speed| ≤ max` it is `speed` itself. -/
theorem limitMaxSpeed_clamps (c : Config K) (speed : K)
    (hmax : 0 < c.MAX_SPEED) (hr : 0 < c.WheelRadius) :
    (-(c.MAX_SPEED / c.WheelRadius) ≤ limitMaxSpeed c speed ∧
      limitMaxSpeed c speed ≤ c.MAX_SPEED / c.WheelRadius) ∧
    (abs speed > c.MAX_SPEED / c.WheelRadius →
      abs (limitMaxSpeed c speed) = c.MAX_SPEED / c.WheelRadius ∧
      (0 < speed → 0 < limitMaxSpeed c speed) ∧
      (speed < 0 → limitMaxSpeed c speed < 0) ∧
      SignType.sign (limitMaxSpeed c speed) = SignType.sign speed) ∧
    (abs speed ≤ c.MAX_SPEED / c.WheelRadius → limitMaxSpeed c speed = speed) := by
  have hpos : 0 < c.MAX_SPEED / c.WheelRadius := div_pos hmax hr
  by_cases h1 : abs speed > c.MAX_SPEED / c.WheelRadius
  · have hne : speed ≠ 0 := by
      intro h0
      rw [h0, abs_zero] at h1
      exact absurd hpos (not_lt.mpr (le_of_lt h1))
    by_cases h2 : speed > 0
    · have hv : limitMaxSpeed c speed = c.MAX_SPEED / c.WheelRadius := by
        simp [limitMaxSpeed, h1, h2]
      rw [hv]
      refine ⟨⟨by linarith, le_refl _⟩, fun _ => ⟨abs_of_pos hpos, fun _ => hpos,
        fun h => absurd h2 (not_lt.mpr (le_of_lt h)), ?_⟩, fun h => absurd h1 (not_lt.mpr h)⟩
      rw [sign_pos hpos, sign_pos h2]
    · have hneg : speed < 0 := lt_of_le_of_ne (not_lt.mp h2) hne
      have hv : limitMaxSpeed c speed = -(c.MAX_SPEED / c.WheelRadius) := by
        simp [limitMaxSpeed, h1, h2]
      rw [hv]
      refine ⟨⟨le_refl _, by linarith⟩, fun _ => ⟨?_, fun h => absurd h h2,
        fun _ => by linarith, ?_⟩, fun h => absurd h1 (not_lt.mpr h)⟩
      · rw [abs_neg, abs_of_pos hpos]
      · rw [sign_neg (by linarith), sign_neg hneg]
  · have h1le : abs speed ≤ c.MAX_SPEED / c.WheelRadius := not_lt.mp h1
    have hv : limitMaxSpeed c speed = speed := by
      simp [limitMaxSpeed, h1]
    rw [hv]
    refine ⟨⟨?_, ?_⟩, fun h => absurd h h1, fun _ => rfl⟩
    · exact neg_le_of_abs_le h1le
    · exact le_of_abs_le h1le

/-- Witness for C6 at maximum speed `1`, wheel radius `1/2` and speed `-7`. -/
theorem limitMaxSpeed_clamps_witness :
    (-((mkConfig (1 : ℚ) (1/2) 1 1 1).MAX_SPEED / (mkConfig (1 : ℚ) (1/2) 1 1 1).WheelRadius) ≤
        limitMaxSpeed (mkConfig (1 : ℚ) (1/2) 1 1 1) (-7) ∧
      limitMaxSpeed (mkConfig (1 : ℚ) (1/2) 1 1 1) (-7) ≤
        (mkConfig (1 : ℚ) (1/2) 1 1 1).MAX_SPEED / (mkConfig (1 : ℚ) (1/2) 1 1 1).WheelRadius) ∧
    limitMaxSpeed (mkConfig (1 : ℚ) (1/2) 1 1 1) (-7) = -2 := by
  have h := limitMaxSpeed_clamps (mkConfig (1 : ℚ) (1/2) 1 1 1) (-7)
    (by norm_num [mkConfig]) (by norm_num [mkConfig])
  refine ⟨h.1, ?_⟩
  have h2 := h.2.1 (by norm_num [mkConfig])
  have h3 : limitMaxSpeed (mkConfig (1 : ℚ) (1/2) 1 1 1) (-7) < 0 := h2.2.2.1 (by norm_num)
  have h4 := h2.1
  rw [abs_of_neg h3] at h4
  have h5 : (mkConfig (1 : ℚ) (1/2) 1 1 1).MAX_SPEED / (mkConfig (1 : ℚ) (1/2) 1 1 1).WheelRadius
      = 2 := by norm_num [mkConfig]
  linarith

end KinematicsTheorems

section ParseLemmas

variable {K : Type} [LinearOrderedField K]

/-- On a well-framed line whose fields 5 to 8 all cast, `parse` decodes the
fields, runs the mode switch and stores the previous displacements. -/
theorem parse_valid_eq (cast : List Char → Option K) (u : Utils K) (t : Trig K) (now : K)
    (msg : String) (s : CloberSerial K) (a b c d : K) (hw : WellFramed msg)
    (h5 : cast ((split ':' msg.toList).getD 5 []) = some a)
    (h6 : cast ((split ':' msg.toList).getD 6 []) = some b)
    (h7 : cast ((split ':' msg.toList).getD 7 []) = some c)
    (h8 : cast ((split ':' msg.toList).getD 8 []) = some d) :
    parse cast u t now msg s = (integrate t now (decodeFields u s a b c d)).map storePrev := by
  obtain ⟨hlen, hF, hc, hd, hn⟩ := hw
  simp only [parse, hlen, hF, hc, hd, hn, h5, h6, h7, h8, lexicalCastSizeT, if_true, and_self]
  simp only [integrate, decodeFields, toVW]
  split <;> rename_i h <;> simp only [h, Option.map, storePrev]

/-- The mode-0 update keeps the configuration and wheel records. -/
theorem updatePose_config (t : Trig K) (now : K) (s : CloberSerial K) :
    (updatePose t now s).config_ = s.config_ := by
  unfold updatePose
  split <;> rfl

/-- The arc update is defined in modes 1 and 2 and keeps the configuration and
wheel records. -/
theorem updatePoseArc_config (t : Trig K) (now : K) (s : CloberSerial K) (dL dR : K)
    (hm : s.odom_mode_ = 1 ∨ s.odom_mode_ = 2) :
    ∃ s', updatePoseArc t now s dL dR = some s' ∧ s'.config_ = s.config_ := by
  unfold updatePoseArc turnAngle
  rcases hm with hm | hm <;> by_cases htr : s.trigger_ = true <;> simp [hm, htr]

/-- The mode switch always produces a state, with the configuration and wheel
records untouched. -/
theorem integrate_config (t : Trig K) (now : K) (s : CloberSerial K) :
    ∃ s', integrate t now s = some s' ∧ s'.config_ = s.config_ := by
  unfold integrate
  simp only []
  by_cases h0 : s.odom_mode_ = 0
  · exact ⟨_, by simp only [h0, if_true], updatePose_config t now s⟩
  · by_cases h1 : s.odom_mode_ = 1
    · simp only [h0, h1, if_true, if_false]
      exact updatePoseArc_config t now s _ _ (Or.inl h1)
    · by_cases h2 : s.odom_mode_ = 2
      · simp only [h0, h1, h2, if_true, if_false]
        exact updatePoseArc_config t now s _ _ (Or.inr h2)
      · exact ⟨_, by simp only [h0, h1, h2, if_false], updatePose_config t now s⟩

/-- A line that is not well-framed is returned from without any assignment. -/
theorem parse_of_not_wellFramed (cast : List Char → Option K) (u : Utils K) (t : Trig K)
    (now : K) (msg : String) (s : CloberSerial K) (h : ¬ WellFramed msg) :
    parse cast u t now msg s = some s := by
  unfold WellFramed at h
  unfold parse
  simp only []
  by_cases hlen : msg.toList.length > 2
  · rw [if_pos hlen]
    by_cases hF : msg.toList.getD 0 ' ' = 'F' ∧ msg.toList.getD 2 ' ' = ':'
    · rw [if_pos hF]
      by_cases hd : (msg.toList.getD 1 ' ').isDigit = true
      · have hn : ¬ (split ':' msg.toList).length > 8 := fun hn =>
          h ⟨hlen, hF.1, hF.2, hd, hn⟩
        simp only [lexicalCastSizeT, hd, if_true]
        rw [if_neg hn]
      · simp only [lexicalCastSizeT, hd, if_false]
        simp
    · rw [if_neg hF]
  · rw [if_neg hlen]

/-- A well-framed line with a field that does not cast returns a state that
differs from the input at most in the wheels' RPM, angular speed, cumulative
angle and current displacement. -/
theorem parse_failing_keeps (cast : List Char → Option K) (u : Utils K) (t : Trig K)
    (now : K) (msg : String) (s : CloberSerial K) (hw : WellFramed msg)
    (hf : ¬ ValidFrame cast msg) :
    ∃ s', parse cast u t now msg s = some s' ∧
      s'.odom_mode_ = s.odom_mode_ ∧ s'.trigger_ = s.trigger_ ∧
      s'.config_.WIDTH = s.config_.WIDTH ∧ s'.config_.WheelRadius = s.config_.WheelRadius ∧
      s'.config_.encoder = s.config_.encoder ∧
      s'.timestamp_ = s.timestamp_ ∧ s'.posX_ = s.posX_ ∧ s'.posY_ = s.posY_ ∧
      s'.heading_ = s.heading_ ∧ s'.linearVel_ = s.linearVel_ ∧
      s'.angularVel_ = s.angularVel_ ∧
      s'.config_.left_motor.position_meter_prev = s.config_.left_motor.position_meter_prev ∧
      s'.config_.right_motor.position_meter_prev = s.config_.right_motor.position_meter_prev := by
  have hw' := hw
  obtain ⟨hlen, hF, hc, hd, hn⟩ := hw
  rcases h5 : cast ((split ':' msg.toList).getD 5 []) with _ | a
  · simp only [parse, hlen, hF, hc, hd, hn, h5, lexicalCastSizeT, if_true, and_self]
    exact ⟨_, rfl, rfl, rfl, rfl, rfl, rfl, rfl, rfl, rfl, rfl, rfl, rfl, rfl, rfl⟩
  rcases h6 : cast ((split ':' msg.toList).getD 6 []) with _ | b
  · simp only [parse, hlen, hF, hc, hd, hn, h5, h6, lexicalCastSizeT, if_true, and_self]
    exact ⟨_, rfl, rfl, rfl, rfl, rfl, rfl, rfl, rfl, rfl, rfl, rfl, rfl, rfl, rfl⟩
  rcases h7 : cast ((split ':' msg.toList).getD 7 []) with _ | c
  · simp only [parse, hlen, hF, hc, hd, hn, h5, h6, h7, lexicalCastSizeT, if_true, and_self]
    exact ⟨_, rfl, rfl, rfl, rfl, rfl, rfl, rfl, rfl, rfl, rfl, rfl, rfl, rfl, rfl⟩
  rcases h8 : cast ((split ':' msg.toList).getD 8 []) with _ | d
  · simp only [parse, hlen, hF, hc, hd, hn, h5, h6, h7, h8, lexicalCastSizeT, if_true, and_self]
    exact ⟨_, rfl, rfl, rfl, rfl, rfl, rfl, rfl, rfl, rfl, rfl, rfl, rfl, rfl, rfl⟩
  exact absurd ⟨hw', by rw [h5]; rfl, by rw [h6]; rfl, by rw [h7]; rfl, by rw [h8]; rfl⟩ hf

end ParseLemmas

/-- The four casts of a valid frame. -/
theorem validFrame_casts {K : Type} (cast : List Char → Option K) (msg : String)
    (hv : ValidFrame cast msg) :
    ∃ a b c d, cast ((split ':' msg.toList).getD 5 []) = some a ∧
      cast ((split ':' msg.toList).getD 6 []) = some b ∧
      cast ((split ':' msg.toList).getD 7 []) = some c ∧
      cast ((split ':' msg.toList).getD 8 []) = some d := by
  obtain ⟨_, h5, h6, h7, h8⟩ := hv
  exact ⟨_, _, _, _, Option.eq_some_of_isSome h5, Option.eq_some_of_isSome h6,
    Option.eq_some_of_isSome h7, Option.eq_some_of_isSome h8⟩

section StepLemmas

variable {K : Type} [LinearOrderedField K]

/-- In the unseeded state the mode-0 update only records the time and sets the
trigger flag. -/
theorem updatePose_unseeded (t : Trig K) (now : K) (s : CloberSerial K)
    (htr : s.trigger_ = false) :
    updatePose t now s = { s with timestamp_ := now, trigger_ := true } := by
  simp [updatePose, htr]

/-- In the unseeded state the arc update only records the time and sets the
trigger flag, whatever the mode. -/
theorem updatePoseArc_unseeded (t : Trig K) (now : K) (s : CloberSerial K) (dL dR : K)
    (htr : s.trigger_ = false) :
    updatePoseArc t now s dL dR = some { s with timestamp_ := now, trigger_ := true } := by
  simp [updatePoseArc, htr]

/-- In the unseeded state the mode switch only records the time and sets the
trigger flag, in every mode. -/
theorem integrate_unseeded (t : Trig K) (now : K) (s : CloberSerial K)
    (htr : s.trigger_ = false) :
    integrate t now s = some { s with timestamp_ := now, trigger_ := true } := by
  unfold integrate
  simp only [updatePose_unseeded t now s htr, updatePoseArc_unseeded t now s _ _ htr]
  split_ifs <;> rfl

/-- The mode switch in mode 1. -/
theorem integrate_mode1 (t : Trig K) (now : K) (s : CloberSerial K)
    (hm : s.odom_mode_ = 1) :
    integrate t now s = updatePoseArc t now s
      (s.config_.left_motor.speed * s.config_.WheelRadius)
      (s.config_.right_motor.speed * s.config_.WheelRadius) := by
  unfold integrate
  simp [hm]

/-- The mode switch in mode 2. -/
theorem integrate_mode2 (t : Trig K) (now : K) (s : CloberSerial K)
    (hm : s.odom_mode_ = 2) :
    integrate t now s = updatePoseArc t now s
      (s.config_.left_motor.position_meter_curr - s.config_.left_motor.position_meter_prev)
      (s.config_.right_motor.position_meter_curr - s.config_.right_motor.position_meter_prev) := by
  unfold integrate
  simp [hm]

/-- The mode switch in every mode other than 1 and 2. -/
theorem integrate_other (t : Trig K) (now : K) (s : CloberSerial K)
    (h1 : s.odom_mode_ ≠ 1) (h2 : s.odom_mode_ ≠ 2) :
    integrate t now s = some (updatePose t now s) := by
  unfold integrate
  simp only []
  split_ifs <;> rfl

/-- On every line `parse` returns a state, with the mode and the wheel separation
kept and a set trigger flag still set. -/
theorem parse_total (cast : List Char → Option K) (u : Utils K) (t : Trig K)
    (now : K) (msg : String) (s : CloberSerial K) :
    ∃ s', parse cast u t now msg s = some s' ∧ s'.odom_mode_ = s.odom_mode_ ∧
      s'.config_.WIDTH = s.config_.WIDTH ∧
      (s.trigger_ = true → s'.trigger_ = true) := by
  by_cases hw : WellFramed msg
  · by_cases hv : ValidFrame cast msg
    · obtain ⟨a, b, c, d, h5, h6, h7, h8⟩ := validFrame_casts cast msg hv
      rw [parse_valid_eq cast u t now msg s a b c d hw h5 h6 h7 h8]
      have hD : (decodeFields u s a b c d).odom_mode_ = s.odom_mode_ := rfl
      have hDt : (decodeFields u s a b c d).trigger_ = s.trigger_ := rfl
      have hDW : (decodeFields u s a b c d).config_.WIDTH = s.config_.WIDTH := rfl
      generalize decodeFields u s a b c d = D at hD hDt hDW
      by_cases htr : D.trigger_ = true
      · by_cases h1 : D.odom_mode_ = 1
        · rw [integrate_mode1 t now D h1]
          unfold updatePoseArc turnAngle
          simp [htr, h1, storePrev, ← hD, ← hDW]
        · by_cases h2 : D.odom_mode_ = 2
          · rw [integrate_mode2 t now D h2]
            unfold updatePoseArc turnAngle
            simp [htr, h2, storePrev, ← hD, ← hDW]
          · rw [integrate_other t now D h1 h2]
            unfold updatePose
            simp [htr, storePrev, ← hD, ← hDW]
      · have htr' : D.trigger_ = false := by simpa using htr
        rw [integrate_unseeded t now D htr']
        simp [storePrev, ← hD, ← hDW]
    · obtain ⟨s', hs', hm, htr, hW, _⟩ := parse_failing_keeps cast u t now msg s hw hv
      exact ⟨s', hs', hm, hW, fun h => by rw [htr]; exact h⟩
  · exact ⟨s, parse_of_not_wellFramed cast u t now msg s hw, rfl, rfl, fun h => h⟩

/-- One valid frame in mode 2 from the running state. -/
theorem parse_mode2_step (cast : List Char → Option K) (u : Utils K) (t : Trig K)
    (now : K) (msg : String) (s : CloberSerial K) (hv : ValidFrame cast msg)
    (htr : s.trigger_ = true) (hm : s.odom_mode_ = 2) :
    ∃ s', parse cast u t now msg s = some s' ∧
      s'.heading_ = s.heading_ +
        ((s'.config_.right_motor.position_meter_curr -
            s.config_.right_motor.position_meter_prev) -
          (s'.config_.left_motor.position_meter_curr -
            s.config_.left_motor.position_meter_prev)) / s.config_.WIDTH ∧
      s'.config_.left_motor.position_meter_prev = s'.config_.left_motor.position_meter_curr ∧
      s'.config_.right_motor.position_meter_prev = s'.config_.right_motor.position_meter_curr ∧
      s'.trigger_ = true ∧ s'.odom_mode_ = 2 ∧ s'.config_.WIDTH = s.config_.WIDTH := by
  obtain ⟨a, b, c, d, h5, h6, h7, h8⟩ := validFrame_casts cast msg hv
  rw [parse_valid_eq cast u t now msg s a b c d hv.1 h5 h6 h7 h8]
  rw [integrate_mode2 t now _ (by exact hm)]
  unfold updatePoseArc turnAngle
  simp [decodeFields, toVW, storePrev, htr, hm]

end StepLemmas

section ModeTheorems

variable {K : Type} [LinearOrderedField K]

/-- C14: for a mode value outside `0, 1, 2`, on every state and every line, `parse`
returns exactly the state it returns with mode 0, apart from the stored mode
value itself: wheel state, velocity, pose, trigger flag and timestamp agree. -/
theorem parse_unknown_mode_as_mode0 (cast : List Char → Option K) (u : Utils K) (t : Trig K)
    (now : K) (msg : String) (s : CloberSerial K) (m : Int)
    (hm : m ≠ 0 ∧ m ≠ 1 ∧ m ≠ 2) :
    parse cast u t now msg { s with odom_mode_ := m } =
      (parse cast u t now msg { s with odom_mode_ := 0 }).map
        (fun s' => { s' with odom_mode_ := m }) := by
  obtain ⟨hm0, hm1, hm2⟩ := hm
  by_cases hw : WellFramed msg
  · have hw' := hw
    obtain ⟨hlen, hF, hc, hd, hn⟩ := hw
    rcases h5 : cast ((split ':' msg.toList).getD 5 []) with _ | a
    · simp only [parse, hlen, hF, hc, hd, hn, h5, lexicalCastSizeT, if_true, and_self]
      rfl
    rcases h6 : cast ((split ':' msg.toList).getD 6 []) with _ | b
    · simp only [parse, hlen, hF, hc, hd, hn, h5, h6, lexicalCastSizeT, if_true, and_self]
      rfl
    rcases h7 : cast ((split ':' msg.toList).getD 7 []) with _ | c
    · simp only [parse, hlen, hF, hc, hd, hn, h5, h6, h7, lexicalCastSizeT, if_true, and_self]
      rfl
    rcases h8 : cast ((split ':' msg.toList).getD 8 []) with _ | d
    · simp only [parse, hlen, hF, hc, hd, hn, h5, h6, h7, h8, lexicalCastSizeT, if_true,
        and_self]
      rfl
    rw [parse_valid_eq cast u t now msg _ a b c d hw' h5 h6 h7 h8,
      parse_valid_eq cast u t now msg _ a b c d hw' h5 h6 h7 h8]
    have h01 : (0 : Int) ≠ 1 := by decide
    have h02 : (0 : Int) ≠ 2 := by decide
    rw [integrate_other t now _ (by exact hm1) (by exact hm2),
      integrate_other t now _ (by exact h01) (by exact h02)]
    simp only [Option.map, updatePose, decodeFields, toVW, storePrev]
    split <;> rfl
  · rw [parse_of_not_wellFramed cast u t now msg _ hw,
      parse_of_not_wellFramed cast u t now msg _ hw]
    rfl

end ModeTheorems

section ParseTheorems

variable {K : Type} [LinearOrderedField K]

/-- C7: a line rejected before field decoding (length at most 2, or character 0
not `F`, or character 2 not `:`, or character 1 not a decimal digit, or at most
8 fields after splitting on `:`) leaves the whole state unchanged: wheel state,
robot velocity, pose, trigger flag and timestamp. -/
theorem parse_rejected_unchanged (cast : List Char → Option K) (u : Utils K) (t : Trig K)
    (now : K) (msg : String) (s : CloberSerial K)
    (h : msg.toList.length ≤ 2 ∨ msg.toList.getD 0 ' ' ≠ 'F' ∨ msg.toList.getD 2 ' ' ≠ ':' ∨
      (msg.toList.getD 1 ' ').isDigit = false ∨ (split ':' msg.toList).length ≤ 8) :
    parse cast u t now msg s = some s := by
  unfold parse
  simp only []
  by_cases hlen : msg.toList.length > 2
  · rw [if_pos hlen]
    by_cases hF : msg.toList.getD 0 ' ' = 'F' ∧ msg.toList.getD 2 ' ' = ':'
    · rw [if_pos hF]
      by_cases hd : (msg.toList.getD 1 ' ').isDigit = true
      · simp only [lexicalCastSizeT, hd, if_true]
        have hn : ¬ (split ':' msg.toList).length > 8 := by
          rcases h with h | h | h | h | h
          · omega
          · exact absurd hF.1 h
          · exact absurd hF.2 h
          · rw [hd] at h
            exact absurd h (by decide)
          · omega
        rw [if_neg hn]
      · simp only [lexicalCastSizeT, hd, if_false]
        simp
    · rw [if_neg hF]
  · rw [if_neg hlen]

/-- Witness for C7: the 8-field frame `F1:a:b:c:d:1000:1000:500` leaves a
running state unchanged. -/
theorem parse_rejected_unchanged_witness :
    (split ':' "F1:a:b:c:d:1000:1000:500".toList).length = 8 ∧
    parse castDigits sampleUtils sampleTrig 1 "F1:a:b:c:d:1000:1000:500"
      (mkState (mkConfig (1 : ℚ) 1 1 1 1) 2 true 0 0 0) =
      some (mkState (mkConfig (1 : ℚ) 1 1 1 1) 2 true 0 0 0) :=
  ⟨by decide, parse_rejected_unchanged castDigits sampleUtils sampleTrig 1
    "F1:a:b:c:d:1000:1000:500" (mkState (mkConfig (1 : ℚ) 1 1 1 1) 2 true 0 0 0)
    (Or.inr (Or.inr (Or.inr (Or.inr (by decide)))))⟩

/-- C1 (evaluation at the failing input): on the well-framed 9-field line
`F1:a:b:c:d:1000:x:500:500`, whose field 6 does not cast, `parse` returns a state
in which the left wheel's RPM and angular speed have already been overwritten
with the values of field 5, so the state is not the one before the call. -/
theorem parse_bad_field6_keeps_left_update (u : Utils ℚ) (t : Trig ℚ) (now : ℚ) :
    WellFramed "F1:a:b:c:d:1000:x:500:500" ∧
    (castDigits ((split ':' "F1:a:b:c:d:1000:x:500:500".toList).getD 6 []) : Option ℚ) = none ∧
    parse castDigits u t now "F1:a:b:c:d:1000:x:500:500"
        (mkState (mkConfig (1 : ℚ) 1 1 1 1) 0 true 0 0 0) =
      some { mkState (mkConfig (1 : ℚ) 1 1 1 1) 0 true 0 0 0 with
        config_.left_motor.rpm := 1000
        config_.left_motor.speed := u.toVelocity 1000 } ∧
    parse castDigits u t now "F1:a:b:c:d:1000:x:500:500"
        (mkState (mkConfig (1 : ℚ) 1 1 1 1) 0 true 0 0 0) ≠
      some (mkState (mkConfig (1 : ℚ) 1 1 1 1) 0 true 0 0 0) := by
  have hw : WellFramed "F1:a:b:c:d:1000:x:500:500" := by decide
  have h5 : (castDigits ((split ':' "F1:a:b:c:d:1000:x:500:500".toList).getD 5 []) : Option ℚ)
      = some 1000 := by
    have : (split ':' "F1:a:b:c:d:1000:x:500:500".toList).getD 5 [] = "1000".toList := by decide
    rw [this]
    simp [castDigits]
  have h6 : (castDigits ((split ':' "F1:a:b:c:d:1000:x:500:500".toList).getD 6 []) : Option ℚ)
      = none := by
    have : (split ':' "F1:a:b:c:d:1000:x:500:500".toList).getD 6 [] = "x".toList := by decide
    rw [this]
    simp [castDigits]
  have hp : parse castDigits u t now "F1:a:b:c:d:1000:x:500:500"
        (mkState (mkConfig (1 : ℚ) 1 1 1 1) 0 true 0 0 0) =
      some { mkState (mkConfig (1 : ℚ) 1 1 1 1) 0 true 0 0 0 with
        config_.left_motor.rpm := 1000
        config_.left_motor.speed := u.toVelocity 1000 } := by
    obtain ⟨hlen, hF, hc, hd, hn⟩ := hw
    simp only [parse, hlen, hF, hc, hd, hn, h5, h6, lexicalCastSizeT, if_true, and_self]
  refine ⟨hw, h6, hp, ?_⟩
  rw [hp]
  intro h
  have h2 := congrArg (fun o => o.map (fun s => s.config_.left_motor.rpm)) h
  simp [mkState, mkConfig, zeroMotor] at h2

/-- C8: on a valid frame (well-framed, fields 5 to 8 cast to `a`, `b`, `c`, `d`)
`parse` returns a state whose left RPM is `a` and right RPM is `b`, whose wheel
angular speeds are `toVelocity` of these, whose cumulative angles have grown by
`toRad c ppr` and `toRad d ppr`, and whose current displacements are the new
cumulative angles times the wheel radius; the spec's `toRad` is
`ticks / ppr * 2π`; and on the line `F1:a:b:c:d:1000:1000:500:500` both RPMs
become 1000 and both cumulative angles advance by the same amount. -/
theorem parse_valid_frame (cast : List Char → Option K) (u : Utils K) (t : Trig K) (now : K) :
    (∀ (msg : String) (s : CloberSerial K) (a b c d : K), WellFramed msg →
      cast ((split ':' msg.toList).getD 5 []) = some a →
      cast ((split ':' msg.toList).getD 6 []) = some b →
      cast ((split ':' msg.toList).getD 7 []) = some c →
      cast ((split ':' msg.toList).getD 8 []) = some d →
      ∃ s', parse cast u t now msg s = some s' ∧
        s'.config_.left_motor.rpm = a ∧ s'.config_.right_motor.rpm = b ∧
        s'.config_.left_motor.speed = u.toVelocity a ∧
        s'.config_.right_motor.speed = u.toVelocity b ∧
        s'.config_.left_motor.position_rad =
          s.config_.left_motor.position_rad + u.toRad c s.config_.encoder.ppr ∧
        s'.config_.right_motor.position_rad =
          s.config_.right_motor.position_rad + u.toRad d s.config_.encoder.ppr ∧
        s'.config_.left_motor.position_meter_curr =
          s'.config_.left_motor.position_rad * s.config_.WheelRadius ∧
        s'.config_.right_motor.position_meter_curr =
          s'.config_.right_motor.position_rad * s.config_.WheelRadius) ∧
    (∀ pi ticks ppr : K, (specUtils pi).toRad ticks ppr = ticks / ppr * (2 * pi)) ∧
    (∀ s : CloberSerial K, cast "1000".toList = some 1000 → cast "500".toList = some 500 →
      ∃ s', parse cast u t now "F1:a:b:c:d:1000:1000:500:500" s = some s' ∧
        s'.config_.left_motor.rpm = 1000 ∧ s'.config_.right_motor.rpm = 1000 ∧
        s'.config_.left_motor.position_rad - s.config_.left_motor.position_rad =
          s'.config_.right_motor.position_rad - s.config_.right_motor.position_rad) := by
  have hA : ∀ (msg : String) (s : CloberSerial K) (a b c d : K), WellFramed msg →
      cast ((split ':' msg.toList).getD 5 []) = some a →
      cast ((split ':' msg.toList).getD 6 []) = some b →
      cast ((split ':' msg.toList).getD 7 []) = some c →
      cast ((split ':' msg.toList).getD 8 []) = some d →
      ∃ s', parse cast u t now msg s = some s' ∧
        s'.config_ = (storePrev (decodeFields u s a b c d)).config_ := by
    intro msg s a b c d hw h5 h6 h7 h8
    obtain ⟨s1, hs1, hc1⟩ := integrate_config t now (decodeFields u s a b c d)
    refine ⟨storePrev s1, ?_, ?_⟩
    · rw [parse_valid_eq cast u t now msg s a b c d hw h5 h6 h7 h8, hs1]
      rfl
    · simp only [storePrev, hc1]
  refine ⟨?_, fun _ _ _ => rfl, ?_⟩
  · intro msg s a b c d hw h5 h6 h7 h8
    obtain ⟨s', hs', hc⟩ := hA msg s a b c d hw h5 h6 h7 h8
    refine ⟨s', hs', ?_⟩
    rw [hc]
    simp [storePrev, decodeFields, toVW]
  · intro s h1000 h500
    have hw : WellFramed "F1:a:b:c:d:1000:1000:500:500" := by decide
    have e5 : (split ':' "F1:a:b:c:d:1000:1000:500:500".toList).getD 5 [] = "1000".toList := by
      decide
    have e6 : (split ':' "F1:a:b:c:d:1000:1000:500:500".toList).getD 6 [] = "1000".toList := by
      decide
    have e7 : (split ':' "F1:a:b:c:d:1000:1000:500:500".toList).getD 7 [] = "500".toList := by
      decide
    have e8 : (split ':' "F1:a:b:c:d:1000:1000:500:500".toList).getD 8 [] = "500".toList := by
      decide
    obtain ⟨s', hs', hc⟩ := hA "F1:a:b:c:d:1000:1000:500:500" s 1000 1000 500 500 hw
      (by rw [e5]; exact h1000) (by rw [e6]; exact h1000) (by rw [e7]; exact h500)
      (by rw [e8]; exact h500)
    refine ⟨s', hs', ?_⟩
    rw [hc]
    simp [storePrev, decodeFields, toVW]

/-- Witness for C8: the frame `F1:a:b:c:d:1000:1000:500:500` read with
`castDigits` from the start-up state with 4 pulses per revolution. -/
theorem parse_valid_frame_witness :
    (∃ s', parse castDigits sampleUtils sampleTrig 1 "F1:a:b:c:d:1000:1000:500:500"
        (mkState (mkConfig (1 : ℚ) 1 1 1 4) 0 false 0 0 0) = some s' ∧
      s'.config_.left_motor.rpm = 1000 ∧ s'.config_.right_motor.rpm = 1000 ∧
      s'.config_.left_motor.speed = sampleUtils.toVelocity 1000 ∧
      s'.config_.right_motor.speed = sampleUtils.toVelocity 1000 ∧
      s'.config_.left_motor.position_rad =
        (mkState (mkConfig (1 : ℚ) 1 1 1 4) 0 false 0 0 0).config_.left_motor.position_rad +
          sampleUtils.toRad 500
            (mkState (mkConfig (1 : ℚ) 1 1 1 4) 0 false 0 0 0).config_.encoder.ppr ∧
      s'.config_.right_motor.position_rad =
        (mkState (mkConfig (1 : ℚ) 1 1 1 4) 0 false 0 0 0).config_.right_motor.position_rad +
          sampleUtils.toRad 500
            (mkState (mkConfig (1 : ℚ) 1 1 1 4) 0 false 0 0 0).config_.encoder.ppr ∧
      s'.config_.left_motor.position_meter_curr =
        s'.config_.left_motor.position_rad *
          (mkState (mkConfig (1 : ℚ) 1 1 1 4) 0 false 0 0 0).config_.WheelRadius ∧
      s'.config_.right_motor.position_meter_curr =
        s'.config_.right_motor.position_rad *
          (mkState (mkConfig (1 : ℚ) 1 1 1 4) 0 false 0 0 0).config_.WheelRadius) ∧
    ∃ s', parse castDigits sampleUtils sampleTrig 1 "F1:a:b:c:d:1000:1000:500:500"
        (mkState (mkConfig (1 : ℚ) 1 1 1 4) 0 false 0 0 0) = some s' ∧
      s'.config_.left_motor.rpm = 1000 ∧ s'.config_.right_motor.rpm = 1000 ∧
      s'.config_.left_motor.position_rad -
          (mkState (mkConfig (1 : ℚ) 1 1 1 4) 0 false 0 0 0).config_.left_motor.position_rad =
        s'.config_.right_motor.position_rad -
          (mkState (mkConfig (1 : ℚ) 1 1 1 4) 0 false 0 0 0).config_.right_motor.position_rad :=
  ⟨(parse_valid_frame castDigits sampleUtils sampleTrig 1).1 "F1:a:b:c:d:1000:1000:500:500"
      (mkState (mkConfig (1 : ℚ) 1 1 1 4) 0 false 0 0 0) 1000 1000 500 500 (by decide)
      (by simp [castDigits, split]) (by simp [castDigits, split])
      (by simp [castDigits, split]) (by simp [castDigits, split]),
    (parse_valid_frame castDigits sampleUtils sampleTrig 1).2.2
      (mkState (mkConfig (1 : ℚ) 1 1 1 4) 0 false 0 0 0)
      (by simp [castDigits]) (by simp [castDigits])⟩

end ParseTheorems

section ArcTheorems

/-- In the running state and in mode 1 or 2, an arc step with equal inputs
`dL = dR = d` returns a state whose position and heading are those before the
step, for every trigonometric pair and every `d`. -/
theorem updatePoseArc_equal_inputs {K : Type} [LinearOrderedField K] (t : Trig K) (now : K)
    (s : CloberSerial K) (d : K) (htr : s.trigger_ = true)
    (hm : s.odom_mode_ = 1 ∨ s.odom_mode_ = 2) :
    ∃ s', updatePoseArc t now s d d = some s' ∧
      s'.posX_ = s.posX_ ∧ s'.posY_ = s.posY_ ∧ s'.heading_ = s.heading_ := by
  have hR : turnRadius s.config_ d d = 0 := by
    simp [turnRadius]
  unfold updatePoseArc
  rcases hm with hm | hm <;> simp [htr, hm, hR, turnAngle]

/-- C2 (evaluation at the failing input): from the running pose `(0, 0, 0)` the
arc step with `dL = dR = 0.5` returns the pose `(0, 0, 0)` in mode 2 and in
mode 1, whereas advancing 0.5 m along the heading would give `x = 0.5`. -/
theorem updatePoseArc_straight_no_advance :
    (updatePoseArc ⟨Real.cos, Real.sin⟩ 1 (mkState (mkConfig (1 : ℝ) 1 1 1 1) 2 true 0 0 0)
        0.5 0.5).map (fun s => (s.posX_, s.posY_, s.heading_)) = some (0, 0, 0) ∧
    (updatePoseArc ⟨Real.cos, Real.sin⟩ 1 (mkState (mkConfig (1 : ℝ) 1 1 1 1) 1 true 0 0 0)
        0.5 0.5).map (fun s => (s.posX_, s.posY_, s.heading_)) = some (0, 0, 0) ∧
    (0 : ℝ) + 0.5 * Real.cos 0 = 0.5 ∧ (0 : ℝ) ≠ 0.5 := by
  refine ⟨?_, ?_, by simp, by norm_num⟩
  · obtain ⟨s', hs', hx, hy, hh⟩ := updatePoseArc_equal_inputs ⟨Real.cos, Real.sin⟩ 1
      (mkState (mkConfig (1 : ℝ) 1 1 1 1) 2 true 0 0 0) 0.5 rfl (Or.inr rfl)
    rw [hs']
    simp [hx, hy, hh, mkState]
  · obtain ⟨s', hs', hx, hy, hh⟩ := updatePoseArc_equal_inputs ⟨Real.cos, Real.sin⟩ 1
      (mkState (mkConfig (1 : ℝ) 1 1 1 1) 1 true 0 0 0) 0.5 rfl (Or.inl rfl)
    rw [hs']
    simp [hx, hy, hh, mkState]

/-- C3 (evaluation at the failing input): for the right turn `dL = 1`, `dR = 0`
with wheel separation 1 the difference `dR - dL = -1` has magnitude at least
`1e-4`, the formula `(W/2)·(dL+dR)/(dR−dL)` gives `-1/2`, and the code's radius
is `0`. -/
theorem turnRadius_right_turn_zero :
    ¬ (abs ((0 : ℚ) - 1) < 0.0001) ∧ (0 : ℚ) - 1 ≤ -0.0001 ∧
    ((mkConfig (1 : ℚ) 1 1 1 1).WIDTH / 2) * (((1 : ℚ) + 0) / (0 - 1)) = -1 / 2 ∧
    turnRadius (mkConfig (1 : ℚ) 1 1 1 1) 1 0 = 0 := by
  refine ⟨by norm_num, by norm_num, by norm_num [mkConfig], ?_⟩
  norm_num [turnRadius]

/-- C9 (counterexample): with wheel separation `1/100000`, in mode 2 and from the
running pose `(0, 0, 0)`, the step `dL = 0`, `dR = π·W` falls below the `1e-4`
threshold, so the radius is 0 and the position stays `(0, 0)` instead of moving
to `(x − W·sin(heading), y + W·cos(heading)) = (0, W)`. -/
theorem updatePoseArc_half_turn_small_width :
    (0 : ℝ) < (mkState (mkConfig (1 / 100000 : ℝ) 1 1 1 1) 2 true 0 0 0).config_.WIDTH ∧
    ∃ s', updatePoseArc ⟨Real.cos, Real.sin⟩ 1
        (mkState (mkConfig (1 / 100000 : ℝ) 1 1 1 1) 2 true 0 0 0) 0
        (Real.pi * (1 / 100000)) = some s' ∧
      s'.posY_ = 0 ∧
      s'.posY_ ≠ (mkState (mkConfig (1 / 100000 : ℝ) 1 1 1 1) 2 true 0 0 0).posY_ +
        (mkState (mkConfig (1 / 100000 : ℝ) 1 1 1 1) 2 true 0 0 0).config_.WIDTH *
          Real.cos (mkState (mkConfig (1 / 100000 : ℝ) 1 1 1 1) 2 true 0 0 0).heading_ := by
  have hpi : Real.pi * (1 / 100000) - 0 < (0.0001 : ℝ) := by
    have := Real.pi_le_four
    norm_num
    linarith
  have hR : turnRadius (mkState (mkConfig (1 / 100000 : ℝ) 1 1 1 1) 2 true 0 0 0).config_ 0
      (Real.pi * (1 / 100000)) = 0 := by
    unfold turnRadius
    rw [if_pos hpi]
  refine ⟨by norm_num [mkState, mkConfig], ?_⟩
  unfold updatePoseArc
  simp only [hR]
  simp [mkState, mkConfig, turnAngle]

/-- C9 (amended): in the running state, with positive wheel separation `W` such
that `π·W ≥ 1e-4`, the arc step with `dL = 0`, `dR = π·W`, in mode 2 or in mode 1
with elapsed time 1, adds exactly `π` to the heading and moves the position to
`(x − W·sin(heading), y + W·cos(heading))`, the half-turn image of `(x, y)`
about the left wheel's location `(x − (W/2)·sin(heading), y + (W/2)·cos(heading))`. -/
theorem updatePoseArc_half_turn (now : ℝ) (s : CloberSerial ℝ) (htr : s.trigger_ = true)
    (hW : 0 < s.config_.WIDTH) (hbig : 0.0001 ≤ Real.pi * s.config_.WIDTH)
    (hm : s.odom_mode_ = 2 ∨ (s.odom_mode_ = 1 ∧ now - s.timestamp_ = 1)) :
    ∃ s', updatePoseArc ⟨Real.cos, Real.sin⟩ now s 0 (Real.pi * s.config_.WIDTH) = some s' ∧
      s'.heading_ = s.heading_ + Real.pi ∧
      s'.posX_ = s.posX_ - s.config_.WIDTH * Real.sin s.heading_ ∧
      s'.posY_ = s.posY_ + s.config_.WIDTH * Real.cos s.heading_ ∧
      s'.posX_ = 2 * (s.posX_ - s.config_.WIDTH / 2 * Real.sin s.heading_) - s.posX_ ∧
      s'.posY_ = 2 * (s.posY_ + s.config_.WIDTH / 2 * Real.cos s.heading_) - s.posY_ := by
  have hW0 : s.config_.WIDTH ≠ 0 := ne_of_gt hW
  have hpiW : Real.pi * s.config_.WIDTH ≠ 0 := mul_ne_zero Real.pi_ne_zero hW0
  have hR : turnRadius s.config_ 0 (Real.pi * s.config_.WIDTH) = s.config_.WIDTH / 2 := by
    unfold turnRadius
    rw [if_neg (by rw [sub_zero]; exact not_lt.mpr hbig)]
    rw [zero_add, sub_zero, div_self hpiW, mul_one]
  have hA : turnAngle s.config_ s.odom_mode_ (now - s.timestamp_) 0
      (Real.pi * s.config_.WIDTH) = some Real.pi := by
    unfold turnAngle
    rcases hm with hm | ⟨hm, hdt⟩
    · simp [hm, hW0]
    · simp [hm, hdt, hW0]
  unfold updatePoseArc
  simp only [htr, hR, hA, Bool.not_true, Bool.false_eq_true, if_false]
  refine ⟨_, rfl, rfl, ?_, ?_, ?_, ?_⟩ <;> simp only [Real.cos_pi, Real.sin_pi] <;> ring

/-- Witness for C9 (amended): wheel separation 1, mode 2, pose `(0, 0, 0)`. -/
theorem updatePoseArc_half_turn_witness :
    ∃ s', updatePoseArc ⟨Real.cos, Real.sin⟩ 1 (mkState (mkConfig (1 : ℝ) 1 1 1 1) 2 true 0 0 0)
        0 (Real.pi * 1) = some s' ∧
      s'.heading_ = 0 + Real.pi ∧ s'.posX_ = 0 - 1 * Real.sin 0 ∧
      s'.posY_ = 0 + 1 * Real.cos 0 := by
  obtain ⟨s', h1, h2, h3, h4, _⟩ := updatePoseArc_half_turn 1
    (mkState (mkConfig (1 : ℝ) 1 1 1 1) 2 true 0 0 0) rfl
    (by norm_num [mkState, mkConfig])
    (by
      have := Real.pi_gt_three
      norm_num [mkState, mkConfig]
      linarith)
    (Or.inl rfl)
  exact ⟨s', h1, h2, h3, h4⟩

end ArcTheorems

section CommandTheorems

variable {K : Type} [LinearOrderedField K]

/-- C10 (counterexample): with wheel radius 1, maximum RPM 1 and maximum linear
speed `-1`, the command `linear = 0`, `angular = 0` is clamped to the wheel speed
`1`, its per-mille fraction `60/(2π)·1000` is not below `1e-4`, and only the run
message is written. -/
theorem on_motor_move_zero_command_no_stop :
    (0 : ℝ) < (mkConfig (1 : ℝ) 1 (-1) 1 1).WheelRadius ∧
    (0 : ℝ) < (mkConfig (1 : ℝ) 1 (-1) 1 1).MAX_RPM ∧
    on_motor_move (mkConfig (1 : ℝ) 1 (-1) 1 1) (specUtils Real.pi) (fun _ => "") ⟨0, 0⟩ =
      ["!G 1 \r!G 2 \r"] ∧
    sendStop (0, 1) ∉
      on_motor_move (mkConfig (1 : ℝ) 1 (-1) 1 1) (specUtils Real.pi) (fun _ => "") ⟨0, 0⟩ := by
  have hpi := Real.pi_pos
  have hpi4 := Real.pi_le_four
  have hl : limitMaxSpeed (mkConfig (1 : ℝ) 1 (-1) 1 1) 0 = 1 := by
    norm_num [limitMaxSpeed, mkConfig]
  have hf : ¬ (abs ((1 : ℝ) * 60 / (2 * Real.pi) * 1000 / 1) < 0.0001) := by
    rw [not_lt, abs_of_pos (by positivity), div_one]
    have h1 : (1 : ℝ) ≤ 1 * 60 / (2 * Real.pi) := by
      rw [le_div_iff₀ (by positivity)]
      linarith
    have h2 : (0.0001 : ℝ) ≤ 1 * 1000 := by norm_num
    have h3 : (1 : ℝ) * 1000 ≤ 1 * 60 / (2 * Real.pi) * 1000 :=
      mul_le_mul_of_nonneg_right h1 (by norm_num)
    exact le_trans h2 h3
  have hw : wheelRpm (mkConfig (1 : ℝ) 1 (-1) 1 1) (specUtils Real.pi) ⟨0, 0⟩ =
      ((1 : ℝ) * 60 / (2 * Real.pi) * 1000 / 1, (1 : ℝ) * 60 / (2 * Real.pi) * 1000 / 1) := by
    have hz : toWheelSpeed (mkConfig (1 : ℝ) 1 (-1) 1 1) 0 0 = (0, 0) := by
      simp [toWheelSpeed, mkConfig]
    simp only [wheelRpm, hz, hl]
    simp [specUtils, mkConfig]
  have hm : on_motor_move (mkConfig (1 : ℝ) 1 (-1) 1 1) (specUtils Real.pi) (fun _ => "") ⟨0, 0⟩ =
      ["!G 1 \r!G 2 \r"] := by
    unfold on_motor_move
    simp only [hw]
    rw [if_neg (fun h => hf h.1)]
    decide
  refine ⟨by norm_num [mkConfig], by norm_num [mkConfig], hm, ?_⟩
  rw [hm]
  decide

/-- C10 (amended): `on_motor_move` writes the run message first and then the stop
message `"!MS 1\r!MS 2\r"` exactly when both per-mille RPM fractions have
absolute value below `1e-4`; for the command `linear = 0`, `angular = 0` with
positive wheel radius and maximum RPM, non-negative maximum linear speed and
`toRPM 0 = 0`, the run message for fractions `(0, 0)` and the stop message are
written. -/
theorem on_motor_move_stop_iff (c : Config K) (u : Utils K) (fmt : K → String)
    (cmd : MotorCommand K) :
    sendStop (0, 1) = "!MS 1\r!MS 2\r" ∧
    (on_motor_move c u fmt cmd).head? = some (sendRPM fmt (0, 1) (wheelRpm c u cmd)) ∧
    ((on_motor_move c u fmt cmd).tail = ["!MS 1\r!MS 2\r"] ↔
      (abs (wheelRpm c u cmd).1 < 0.0001 ∧ abs (wheelRpm c u cmd).2 < 0.0001)) ∧
    (¬ (abs (wheelRpm c u cmd).1 < 0.0001 ∧ abs (wheelRpm c u cmd).2 < 0.0001) →
      (on_motor_move c u fmt cmd).tail = []) ∧
    (0 < c.WheelRadius → 0 < c.MAX_RPM → 0 ≤ c.MAX_SPEED → u.toRPM 0 = 0 →
      on_motor_move c u fmt ⟨0, 0⟩ = [sendRPM fmt (0, 1) (0, 0), "!MS 1\r!MS 2\r"]) := by
  have hs : sendStop (0, 1) = "!MS 1\r!MS 2\r" := by decide
  refine ⟨hs, ?_, ?_, ?_, ?_⟩
  · unfold on_motor_move
    simp only []
    split <;> rfl
  · unfold on_motor_move
    simp only []
    by_cases h : abs (wheelRpm c u cmd).1 < 0.0001 ∧ abs (wheelRpm c u cmd).2 < 0.0001
    · rw [if_pos h]
      simp [hs, h]
    · rw [if_neg h]
      simp [h]
  · intro h
    unfold on_motor_move
    simp only []
    rw [if_neg h]
    rfl
  · intro hr hrpm hmax h0
    have hmaxr : 0 ≤ c.MAX_SPEED / c.WheelRadius := div_nonneg hmax (le_of_lt hr)
    have hz : toWheelSpeed c 0 0 = (0, 0) := by
      simp [toWheelSpeed]
    have hl : limitMaxSpeed c 0 = 0 := by
      unfold limitMaxSpeed
      simp only [abs_zero]
      rw [if_neg (not_lt.mpr hmaxr)]
    have hw : wheelRpm c u ⟨0, 0⟩ = (0, 0) := by
      simp only [wheelRpm, hz, hl, h0]
      simp
    unfold on_motor_move
    simp only [hw, abs_zero]
    rw [if_pos ⟨by norm_num, by norm_num⟩, hs]
    rfl

/-- Witness for C10 (amended): wheel radius 1, maximum RPM 100, maximum speed 1,
the conversions of `sampleUtils`, command `linear = 0`, `angular = 0`. -/
theorem on_motor_move_stop_iff_witness :
    on_motor_move (mkConfig (1 : ℚ) 1 1 100 1) sampleUtils (fun _ => "0") ⟨0, 0⟩ =
      [sendRPM (fun _ => "0") (0, 1) ((0 : ℚ), (0 : ℚ)), "!MS 1\r!MS 2\r"] :=
  (on_motor_move_stop_iff (mkConfig (1 : ℚ) 1 1 100 1) sampleUtils (fun _ => "0") ⟨0, 0⟩).2.2.2.2
    (by norm_num [mkConfig]) (by norm_num [mkConfig]) (by norm_num [mkConfig])
    (by norm_num [sampleUtils, specUtils])

/-- C11: `on_motor_move` always writes first one run message of the exact shape
`"!G 1 <fL>\r!G 2 <fR>\r"`, channel 1 carrying the left wheel and channel 2 the
right wheel, with `fL = toRPM(limitMaxSpeed((v − W·w/2)/r))·1000/MAX_RPM` and
`fR = toRPM(limitMaxSpeed((v + W·w/2)/r))·1000/MAX_RPM`; whatever follows it
is nothing or the stop message. -/
theorem on_motor_move_run_message (c : Config K) (u : Utils K) (fmt : K → String)
    (cmd : MotorCommand K) :
    (on_motor_move c u fmt cmd).head? =
      some ("!G 1 " ++
        fmt (u.toRPM (limitMaxSpeed c
          ((cmd.linearVel - (c.WIDTH * cmd.angularVel / 2)) / c.WheelRadius)) * 1000 / c.MAX_RPM) ++
        "\r!G 2 " ++
        fmt (u.toRPM (limitMaxSpeed c
          ((cmd.linearVel + (c.WIDTH * cmd.angularVel / 2)) / c.WheelRadius)) * 1000 / c.MAX_RPM) ++
        "\r") ∧
    ((on_motor_move c u fmt cmd).tail = [] ∨
      (on_motor_move c u fmt cmd).tail = [sendStop (0, 1)]) := by
  constructor
  · have h1 : toString ((0 : Int) + 1) = "1" := by decide
    have h2 : toString ((1 : Int) + 1) = "2" := by decide
    have e1 : ∀ x : String, "!G " ++ ("1" ++ (" " ++ x)) = "!G 1 " ++ x := by
      intro x
      rw [← String.append_assoc, ← String.append_assoc]
      rfl
    have e2 : ∀ x : String, "\r" ++ ("!G " ++ ("2" ++ (" " ++ x))) = "\r!G 2 " ++ x := by
      intro x
      rw [← String.append_assoc, ← String.append_assoc, ← String.append_assoc]
      rfl
    unfold on_motor_move
    simp only []
    have hrun : sendRPM fmt (0, 1) ((wheelRpm c u cmd).1, (wheelRpm c u cmd).2) =
        "!G 1 " ++
        fmt (u.toRPM (limitMaxSpeed c
          ((cmd.linearVel - (c.WIDTH * cmd.angularVel / 2)) / c.WheelRadius)) * 1000 / c.MAX_RPM) ++
        "\r!G 2 " ++
        fmt (u.toRPM (limitMaxSpeed c
          ((cmd.linearVel + (c.WIDTH * cmd.angularVel / 2)) / c.WheelRadius)) * 1000 / c.MAX_RPM) ++
        "\r" := by
      simp only [sendRPM, wheelRpm, toWheelSpeed, h1, h2, String.append_assoc, e1, e2]
    split <;> simp [hrun]
  · unfold on_motor_move
    simp only []
    split
    · right; rfl
    · left; rfl

end CommandTheorems

section OdometryLemmas

variable {K : Type} [LinearOrderedField K]

/-- The sample frame is valid for the digit reader. -/
theorem sample_frame_valid :
    ValidFrame (castDigits : List Char → Option K) "F1:a:b:c:d:1000:1000:500:500" := by
  refine ⟨by decide, ?_, ?_, ?_, ?_⟩ <;> simp [split, castDigits]

/-- One mode-0 step in the running state. -/
theorem updatePose_running (t : Trig K) (now : K) (s : CloberSerial K)
    (htr : s.trigger_ = true) :
    updatePose t now s =
      { s with
        timestamp_ := now
        posX_ := s.posX_ + s.linearVel_ * (now - s.timestamp_) * t.cos s.heading_
        posY_ := s.posY_ + s.linearVel_ * (now - s.timestamp_) * t.sin s.heading_
        heading_ := s.heading_ + s.angularVel_ * (now - s.timestamp_) } := by
  simp [updatePose, htr]

/-- Repeated mode-0 steps with zero angular velocity. -/
theorem eulerSteps_straight (t : Trig K) (dts : List K) (s : CloberSerial K)
    (htr : s.trigger_ = true) (hw : s.angularVel_ = 0) :
    (eulerSteps t dts s).heading_ = s.heading_ ∧
    (eulerSteps t dts s).posX_ = s.posX_ + s.linearVel_ * dts.sum * t.cos s.heading_ ∧
    (eulerSteps t dts s).posY_ = s.posY_ + s.linearVel_ * dts.sum * t.sin s.heading_ ∧
    (eulerSteps t dts s).linearVel_ = s.linearVel_ := by
  induction dts generalizing s with
  | nil => simp [eulerSteps]
  | cons dt rest ih =>
    have h1 := updatePose_running t (s.timestamp_ + dt) s htr
    have ih' := ih (updatePose t (s.timestamp_ + dt) s) (by rw [h1]; exact htr) (by rw [h1]; exact hw)
    have e : eulerSteps t (dt :: rest) s =
        eulerSteps t rest (updatePose t (s.timestamp_ + dt) s) := rfl
    rw [e]
    obtain ⟨i1, i2, i3, i4⟩ := ih'
    rw [i1, i2, i3, i4, h1]
    simp only [hw, List.sum_cons, add_sub_cancel_left, zero_mul, add_zero]
    refine ⟨trivial, ?_, ?_, trivial⟩ <;> ring

end OdometryLemmas

section OdometryTheorems

variable {K : Type} [LinearOrderedField K]

/-- Witness for C14: mode value 7 against mode 0 on the frame
`F1:a:b:c:d:1000:1000:500:500` from a running state. -/
theorem parse_unknown_mode_as_mode0_witness :
    parse castDigits sampleUtils sampleTrig 1 "F1:a:b:c:d:1000:1000:500:500"
        { mkState (mkConfig (1 : ℚ) 1 1 1 4) 0 true 0 0 0 with odom_mode_ := 7 } =
      (parse castDigits sampleUtils sampleTrig 1 "F1:a:b:c:d:1000:1000:500:500"
        { mkState (mkConfig (1 : ℚ) 1 1 1 4) 0 true 0 0 0 with odom_mode_ := 0 }).map
        (fun s' => { s' with odom_mode_ := 7 }) :=
  parse_unknown_mode_as_mode0 castDigits sampleUtils sampleTrig 1
    "F1:a:b:c:d:1000:1000:500:500" (mkState (mkConfig (1 : ℚ) 1 1 1 4) 0 true 0 0 0) 7
    ⟨by decide, by decide, by decide⟩

/-- C12: in every mode, a valid frame processed while the trigger flag is false
sets the stored timestamp to the current time, sets the trigger flag and leaves
`x`, `y` and the heading unchanged; and from a state whose trigger flag is set,
every line, and every sequence of lines, returns a state whose trigger flag is
still set. -/
theorem parse_seeds_then_stays_running (cast : List Char → Option K) (u : Utils K) (t : Trig K) :
    (∀ (now : K) (msg : String) (s : CloberSerial K), ValidFrame cast msg →
      s.trigger_ = false →
      ∃ s', parse cast u t now msg s = some s' ∧ s'.timestamp_ = now ∧ s'.trigger_ = true ∧
        s'.posX_ = s.posX_ ∧ s'.posY_ = s.posY_ ∧ s'.heading_ = s.heading_) ∧
    (∀ (now : K) (msg : String) (s : CloberSerial K), s.trigger_ = true →
      ∃ s', parse cast u t now msg s = some s' ∧ s'.trigger_ = true) ∧
    (∀ (frames : List (K × String)) (s : CloberSerial K), s.trigger_ = true →
      ∃ s', read_serial cast u t frames s = some s' ∧ s'.trigger_ = true) := by
  have step : ∀ (now : K) (msg : String) (s : CloberSerial K), s.trigger_ = true →
      ∃ s', parse cast u t now msg s = some s' ∧ s'.trigger_ = true := by
    intro now msg s htr
    obtain ⟨s', hs', _, _, h⟩ := parse_total cast u t now msg s
    exact ⟨s', hs', h htr⟩
  refine ⟨?_, step, ?_⟩
  · intro now msg s hv htr
    obtain ⟨a, b, c, d, h5, h6, h7, h8⟩ := validFrame_casts cast msg hv
    rw [parse_valid_eq cast u t now msg s a b c d hv.1 h5 h6 h7 h8]
    rw [integrate_unseeded t now _ (by exact htr)]
    exact ⟨_, rfl, rfl, rfl, rfl, rfl, rfl⟩
  · intro frames
    induction frames with
    | nil => intro s htr; exact ⟨s, rfl, htr⟩
    | cons f rest ih =>
      intro s htr
      obtain ⟨s1, hs1, htr1⟩ := step f.1 f.2 s htr
      obtain ⟨s2, hs2, htr2⟩ := ih s1 htr1
      refine ⟨s2, ?_, htr2⟩
      obtain ⟨now, msg⟩ := f
      simp only [read_serial, hs1]
      exact hs2

/-- Witness for C12: a first frame in mode 7, a failing line in mode 1 and a
two-line sequence in mode 2. -/
theorem parse_seeds_then_stays_running_witness :
    (∃ s', parse castDigits sampleUtils sampleTrig 5 "F1:a:b:c:d:1000:1000:500:500"
        (mkState (mkConfig (1 : ℚ) 1 1 1 4) 7 false 2 3 0) = some s' ∧
      s'.timestamp_ = 5 ∧ s'.trigger_ = true ∧ s'.posX_ = 2 ∧ s'.posY_ = 3 ∧ s'.heading_ = 0) ∧
    (∃ s', parse castDigits sampleUtils sampleTrig 5 "F1:a:b:c:d:1000:x:500:500"
        (mkState (mkConfig (1 : ℚ) 1 1 1 4) 1 true 2 3 0) = some s' ∧ s'.trigger_ = true) ∧
    (∃ s', read_serial castDigits sampleUtils sampleTrig
        [(5, "F1:a:b:c:d:1000:1000:500:500"), (6, "garbage")]
        (mkState (mkConfig (1 : ℚ) 1 1 1 4) 2 true 2 3 0) = some s' ∧ s'.trigger_ = true) :=
  ⟨(parse_seeds_then_stays_running castDigits sampleUtils sampleTrig).1 5
      "F1:a:b:c:d:1000:1000:500:500" (mkState (mkConfig (1 : ℚ) 1 1 1 4) 7 false 2 3 0)
      sample_frame_valid rfl,
    (parse_seeds_then_stays_running castDigits sampleUtils sampleTrig).2.1 5
      "F1:a:b:c:d:1000:x:500:500" (mkState (mkConfig (1 : ℚ) 1 1 1 4) 1 true 2 3 0) rfl,
    (parse_seeds_then_stays_running castDigits sampleUtils sampleTrig).2.2
      [(5, "F1:a:b:c:d:1000:1000:500:500"), (6, "garbage")]
      (mkState (mkConfig (1 : ℚ) 1 1 1 4) 2 true 2 3 0) rfl⟩

/-- C16: in every mode and whatever the trigger flag, after a valid frame each
wheel's previous displacement equals its current displacement; after a rejected
or failing line both previous displacements are those before the call. -/
theorem parse_previous_displacement (cast : List Char → Option K) (u : Utils K) (t : Trig K)
    (now : K) (msg : String) (s : CloberSerial K) :
    (ValidFrame cast msg → ∃ s', parse cast u t now msg s = some s' ∧
      s'.config_.left_motor.position_meter_prev = s'.config_.left_motor.position_meter_curr ∧
      s'.config_.right_motor.position_meter_prev =
        s'.config_.right_motor.position_meter_curr) ∧
    (¬ ValidFrame cast msg → ∃ s', parse cast u t now msg s = some s' ∧
      s'.config_.left_motor.position_meter_prev = s.config_.left_motor.position_meter_prev ∧
      s'.config_.right_motor.position_meter_prev =
        s.config_.right_motor.position_meter_prev) := by
  constructor
  · intro hv
    obtain ⟨a, b, c, d, h5, h6, h7, h8⟩ := validFrame_casts cast msg hv
    rw [parse_valid_eq cast u t now msg s a b c d hv.1 h5 h6 h7 h8]
    obtain ⟨s1, hs1, _⟩ := integrate_config t now (decodeFields u s a b c d)
    rw [hs1]
    exact ⟨_, rfl, rfl, rfl⟩
  · intro hv
    by_cases hw : WellFramed msg
    · obtain ⟨s', hs', _, _, _, _, _, _, _, _, _, _, _, hl, hr⟩ :=
        parse_failing_keeps cast u t now msg s hw hv
      exact ⟨s', hs', hl, hr⟩
    · exact ⟨s, parse_of_not_wellFramed cast u t now msg s hw, rfl, rfl⟩

/-- C17: the arc routine reads the unassigned `Wdt` (result `none`) exactly in the
running state with a mode other than 1 and 2; the mode switch of `parse` calls
the arc routine only in the branches for mode 1 and mode 2 and the mode-0 routine
otherwise; hence the switch, `parse` and any run of `read_serial` never reach
that read, for every mode value. -/
theorem parse_never_reads_uninitialised (cast : List Char → Option K) (u : Utils K)
    (t : Trig K) (now : K) (msg : String) (s : CloberSerial K) (dL dR : K) :
    (updatePoseArc t now s dL dR = none ↔
      (s.trigger_ = true ∧ s.odom_mode_ ≠ 1 ∧ s.odom_mode_ ≠ 2)) ∧
    integrate t now s =
      (if s.odom_mode_ = 1 then
        updatePoseArc t now s (s.config_.left_motor.speed * s.config_.WheelRadius)
          (s.config_.right_motor.speed * s.config_.WheelRadius)
      else if s.odom_mode_ = 2 then
        updatePoseArc t now s
          (s.config_.left_motor.position_meter_curr - s.config_.left_motor.position_meter_prev)
          (s.config_.right_motor.position_meter_curr -
            s.config_.right_motor.position_meter_prev)
      else some (updatePose t now s)) ∧
    integrate t now s ≠ none ∧
    parse cast u t now msg s ≠ none ∧
    (∀ frames : List (K × String), read_serial cast u t frames s ≠ none) := by
  refine ⟨?_, ?_, ?_, ?_, ?_⟩
  · unfold updatePoseArc turnAngle
    by_cases htr : s.trigger_ = true
    · by_cases h1 : s.odom_mode_ = 1
      · simp [htr, h1]
      · by_cases h2 : s.odom_mode_ = 2
        · simp [htr, h2]
        · simp [htr, h1, h2]
    · simp [htr]
  · by_cases h1 : s.odom_mode_ = 1
    · rw [integrate_mode1 t now s h1, if_pos h1]
    · by_cases h2 : s.odom_mode_ = 2
      · rw [integrate_mode2 t now s h2, if_neg h1, if_pos h2]
      · rw [integrate_other t now s h1 h2, if_neg h1, if_neg h2]
  · obtain ⟨s', hs', _⟩ := integrate_config t now s
    rw [hs']
    exact Option.some_ne_none s'
  · obtain ⟨s', hs', _⟩ := parse_total cast u t now msg s
    rw [hs']
    exact Option.some_ne_none s'
  · intro frames
    induction frames generalizing s with
    | nil => exact Option.some_ne_none s
    | cons f rest ih =>
      obtain ⟨now1, msg1⟩ := f
      obtain ⟨s', hs', _⟩ := parse_total cast u t now1 msg1 s
      simp only [read_serial, hs']
      exact ih s'

/-- C18: in mode 2, from a running state with positive wheel separation `W`,
after any non-empty sequence of valid frames the heading is its starting value
plus ((right current displacement at the end − right previous displacement at
the start) − (the same for the left wheel)) / `W`. -/
theorem read_serial_mode2_heading (cast : List Char → Option K) (u : Utils K) (t : Trig K)
    (frames : List (K × String)) (s : CloberSerial K) (hne : frames ≠ [])
    (hvalid : ∀ f ∈ frames, ValidFrame cast f.2) (htr : s.trigger_ = true)
    (hm : s.odom_mode_ = 2) (hW : 0 < s.config_.WIDTH) :
    ∃ s', read_serial cast u t frames s = some s' ∧
      s'.heading_ = s.heading_ +
        ((s'.config_.right_motor.position_meter_curr -
            s.config_.right_motor.position_meter_prev) -
          (s'.config_.left_motor.position_meter_curr -
            s.config_.left_motor.position_meter_prev)) / s.config_.WIDTH := by
  induction frames generalizing s with
  | nil => exact absurd rfl hne
  | cons f rest ih =>
    obtain ⟨now, msg⟩ := f
    obtain ⟨s1, hs1, hh, hpl, hpr, htr1, hm1, hW1⟩ :=
      parse_mode2_step cast u t now msg s (hvalid (now, msg) (List.mem_cons_self _ _)) htr hm
    simp only [read_serial, hs1]
    by_cases hrest : rest = []
    · subst hrest
      exact ⟨s1, rfl, hh⟩
    · obtain ⟨s2, hs2, hh2⟩ := ih s1 hrest
        (fun f hf => hvalid f (List.mem_cons_of_mem _ hf)) htr1 hm1 (by rw [hW1]; exact hW)
      refine ⟨s2, hs2, ?_⟩
      rw [hh2, hh, hpl, hpr, hW1]
      ring

/-- C20: from a running state, on a valid frame whose RPM fields cast to `a` and
`b`, and for every elapsed time, `parse` in mode 0 and `parse` in mode 1 return
the same heading, `heading + ((rSpeed − lSpeed)/W)·Δt` with
`lSpeed = toVelocity a · WheelRadius` and `rSpeed = toVelocity b · WheelRadius`. -/
theorem parse_mode0_mode1_same_heading (cast : List Char → Option K) (u : Utils K)
    (t : Trig K) (now : K) (msg : String) (s : CloberSerial K) (a b : K)
    (hv : ValidFrame cast msg)
    (h5 : cast ((split ':' msg.toList).getD 5 []) = some a)
    (h6 : cast ((split ':' msg.toList).getD 6 []) = some b)
    (htr : s.trigger_ = true) :
    ∃ s0 s1, parse cast u t now msg { s with odom_mode_ := 0 } = some s0 ∧
      parse cast u t now msg { s with odom_mode_ := 1 } = some s1 ∧
      s0.heading_ = s.heading_ +
        ((u.toVelocity b * s.config_.WheelRadius - u.toVelocity a * s.config_.WheelRadius) /
          s.config_.WIDTH) * (now - s.timestamp_) ∧
      s1.heading_ = s.heading_ +
        ((u.toVelocity b * s.config_.WheelRadius - u.toVelocity a * s.config_.WheelRadius) /
          s.config_.WIDTH) * (now - s.timestamp_) ∧
      s0.heading_ = s1.heading_ := by
  obtain ⟨a', b', c, d, h5', h6', h7, h8⟩ := validFrame_casts cast msg hv
  have ha : a' = a := Option.some.inj (h5'.symm.trans h5)
  have hb : b' = b := Option.some.inj (h6'.symm.trans h6)
  subst ha hb
  have h01 : (0 : Int) ≠ 1 := by decide
  have h02 : (0 : Int) ≠ 2 := by decide
  have e0 : ∃ s0, parse cast u t now msg { s with odom_mode_ := 0 } = some s0 ∧
      s0.heading_ = s.heading_ +
        ((u.toVelocity b' * s.config_.WheelRadius - u.toVelocity a' * s.config_.WheelRadius) /
          s.config_.WIDTH) * (now - s.timestamp_) := by
    rw [parse_valid_eq cast u t now msg _ a' b' c d hv.1 h5 h6 h7 h8]
    rw [integrate_other t now _ (by exact h01) (by exact h02)]
    unfold updatePose
    simp [decodeFields, toVW, storePrev, htr]
  have e1 : ∃ s1, parse cast u t now msg { s with odom_mode_ := 1 } = some s1 ∧
      s1.heading_ = s.heading_ +
        ((u.toVelocity b' * s.config_.WheelRadius - u.toVelocity a' * s.config_.WheelRadius) /
          s.config_.WIDTH) * (now - s.timestamp_) := by
    rw [parse_valid_eq cast u t now msg _ a' b' c d hv.1 h5 h6 h7 h8]
    rw [integrate_mode1 t now _ (by rfl)]
    unfold updatePoseArc turnAngle
    simp [decodeFields, toVW, storePrev, htr]
  obtain ⟨s0, hs0, hh0⟩ := e0
  obtain ⟨s1, hs1, hh1⟩ := e1
  exact ⟨s0, s1, hs0, hs1, hh0, hh1, hh0.trans hh1.symm⟩

/-- C13 (amended): in the running state, in every mode other than 2 (modes 0 and
1 and the values that fall back to mode 0), a valid frame processed with elapsed
time zero leaves `x`, `y` and the heading unchanged. -/
theorem parse_zero_dt_identity (cast : List Char → Option ℝ) (u : Utils ℝ)
    (now : ℝ) (msg : String) (s : CloberSerial ℝ) (hv : ValidFrame cast msg)
    (htr : s.trigger_ = true) (hm : s.odom_mode_ ≠ 2) (hdt : now - s.timestamp_ = 0) :
    ∃ s', parse cast u ⟨Real.cos, Real.sin⟩ now msg s = some s' ∧
      s'.posX_ = s.posX_ ∧ s'.posY_ = s.posY_ ∧ s'.heading_ = s.heading_ := by
  obtain ⟨a, b, c, d, h5, h6, h7, h8⟩ := validFrame_casts cast msg hv
  rw [parse_valid_eq cast u _ now msg s a b c d hv.1 h5 h6 h7 h8]
  by_cases h1 : s.odom_mode_ = 1
  · rw [integrate_mode1 _ now _ (by exact h1)]
    unfold updatePoseArc turnAngle
    simp [decodeFields, toVW, storePrev, htr, h1, hdt]
  · rw [integrate_other _ now _ (by exact h1) (by exact hm)]
    unfold updatePose
    simp [decodeFields, toVW, storePrev, htr, hdt]

/-- C13 (counterexample): in mode 2, from the running pose `(0, 0, 0)` with 4
pulses per revolution, the valid frame `F1:a:b:c:d:0:0:0:4` processed with
elapsed time zero turns the heading to `2π`. -/
theorem parse_zero_dt_mode2_turns :
    ValidFrame (castDigits : List Char → Option ℝ) "F1:a:b:c:d:0:0:0:4" ∧
    (mkState (mkConfig (1 : ℝ) 1 1 1 4) 2 true 0 0 0).trigger_ = true ∧
    (0 : ℝ) - (mkState (mkConfig (1 : ℝ) 1 1 1 4) 2 true 0 0 0).timestamp_ = 0 ∧
    ∃ s', parse castDigits (specUtils Real.pi) ⟨Real.cos, Real.sin⟩ 0 "F1:a:b:c:d:0:0:0:4"
        (mkState (mkConfig (1 : ℝ) 1 1 1 4) 2 true 0 0 0) = some s' ∧
      s'.heading_ = 2 * Real.pi ∧
      s'.heading_ ≠ (mkState (mkConfig (1 : ℝ) 1 1 1 4) 2 true 0 0 0).heading_ := by
  have hv : ValidFrame (castDigits : List Char → Option ℝ) "F1:a:b:c:d:0:0:0:4" := by
    refine ⟨by decide, ?_, ?_, ?_, ?_⟩ <;> simp [split, castDigits]
  have h5 : (castDigits ((split ':' "F1:a:b:c:d:0:0:0:4".toList).getD 5 []) : Option ℝ)
      = some 0 := by simp [split, castDigits]
  have h6 : (castDigits ((split ':' "F1:a:b:c:d:0:0:0:4".toList).getD 6 []) : Option ℝ)
      = some 0 := by simp [split, castDigits]
  have h7 : (castDigits ((split ':' "F1:a:b:c:d:0:0:0:4".toList).getD 7 []) : Option ℝ)
      = some 0 := by simp [split, castDigits]
  have h8 : (castDigits ((split ':' "F1:a:b:c:d:0:0:0:4".toList).getD 8 []) : Option ℝ)
      = some 4 := by simp [split, castDigits]
  refine ⟨hv, rfl, by simp [mkState], ?_⟩
  rw [parse_valid_eq castDigits _ _ 0 "F1:a:b:c:d:0:0:0:4" _ 0 0 0 4 hv.1 h5 h6 h7 h8]
  rw [integrate_mode2 _ 0 _ (by rfl)]
  unfold updatePoseArc turnAngle
  have hpi := Real.pi_pos
  simp [decodeFields, toVW, storePrev, mkState, mkConfig, zeroMotor, specUtils, toRad]
  exact ne_of_gt hpi

/-- C15: in the running state one mode-0 step gives
`x' = x + v·Δt·cos(heading)`, `y' = y + v·Δt·sin(heading)`,
`heading' = heading + ω·Δt` with the heading before the step in the position
terms; with `ω = 0`, any number of steps with the stored `v` leave the heading
unchanged and advance the position by `v·ΣΔt` along it; with heading 0, `v = 1.0`
and 10 steps of `Δt = 0.1` the result is heading 0, `x = x0 + 1.0`, `y = y0`. -/
theorem updatePose_euler_rule (t : Trig K) :
    (∀ (now : K) (s : CloberSerial K), s.trigger_ = true →
      (updatePose t now s).posX_ =
        s.posX_ + s.linearVel_ * (now - s.timestamp_) * t.cos s.heading_ ∧
      (updatePose t now s).posY_ =
        s.posY_ + s.linearVel_ * (now - s.timestamp_) * t.sin s.heading_ ∧
      (updatePose t now s).heading_ = s.heading_ + s.angularVel_ * (now - s.timestamp_)) ∧
    (∀ (dts : List K) (s : CloberSerial K), s.trigger_ = true → s.angularVel_ = 0 →
      (eulerSteps t dts s).heading_ = s.heading_ ∧
      (eulerSteps t dts s).posX_ = s.posX_ + s.linearVel_ * dts.sum * t.cos s.heading_ ∧
      (eulerSteps t dts s).posY_ = s.posY_ + s.linearVel_ * dts.sum * t.sin s.heading_) ∧
    (∀ (c : Config ℝ) (mode : Int) (x0 y0 : ℝ),
      (eulerSteps ⟨Real.cos, Real.sin⟩ (List.replicate 10 0.1)
        { mkState c mode true x0 y0 0 with linearVel_ := 1.0 }).heading_ = 0 ∧
      (eulerSteps ⟨Real.cos, Real.sin⟩ (List.replicate 10 0.1)
        { mkState c mode true x0 y0 0 with linearVel_ := 1.0 }).posX_ = x0 + 1.0 ∧
      (eulerSteps ⟨Real.cos, Real.sin⟩ (List.replicate 10 0.1)
        { mkState c mode true x0 y0 0 with linearVel_ := 1.0 }).posY_ = y0) := by
  refine ⟨?_, ?_, ?_⟩
  · intro now s htr
    rw [updatePose_running t now s htr]
    exact ⟨rfl, rfl, rfl⟩
  · intro dts s htr hw
    obtain ⟨h1, h2, h3, _⟩ := eulerSteps_straight t dts s htr hw
    exact ⟨h1, h2, h3⟩
  · intro c mode x0 y0
    obtain ⟨h1, h2, h3, _⟩ := eulerSteps_straight ⟨Real.cos, Real.sin⟩ (List.replicate 10 0.1)
      { mkState c mode true x0 y0 0 with linearVel_ := (1.0 : ℝ) } rfl rfl
    rw [h1, h2, h3]
    simp only [mkState, Real.cos_zero, Real.sin_zero, List.sum_replicate, smul_eq_mul]
    norm_num

/-- Witness for C15: one step of `Δt = 1/2` and three steps of total time 1, at
heading 0 with `v = 1`. -/
theorem updatePose_euler_rule_witness :
    (updatePose sampleTrig (1 / 2) { mkState (mkConfig (1 : ℚ) 1 1 1 4) 0 true 0 0 0 with
        linearVel_ := 1 }).posX_ = 1 / 2 ∧
    (eulerSteps sampleTrig [1 / 10, 2 / 10, 7 / 10]
      { mkState (mkConfig (1 : ℚ) 1 1 1 4) 0 true 0 0 0 with linearVel_ := 1 }).posX_ = 1 := by
  have h := updatePose_euler_rule sampleTrig
  have h1 := (h.1 (1 / 2) { mkState (mkConfig (1 : ℚ) 1 1 1 4) 0 true 0 0 0 with
        linearVel_ := 1 } rfl).1
  have h2 := (h.2.1 [1 / 10, 2 / 10, 7 / 10]
    { mkState (mkConfig (1 : ℚ) 1 1 1 4) 0 true 0 0 0 with linearVel_ := 1 } rfl rfl).2.1
  refine ⟨h1.trans ?_, h2.trans ?_⟩
  · norm_num [mkState, sampleTrig]
  · norm_num [mkState, sampleTrig]

/-- C19: in the running state and in mode 1 or 2 the arc step keeps the distance
to the centre of curvature `(x − R·sin(heading), y + R·cos(heading))`: both the
new and the old position are at distance `|R|` from it; and when `R = 0` the
position is unchanged whatever the turn angle. -/
theorem updatePoseArc_rigid_rotation (now : ℝ) (s : CloberSerial ℝ) (dL dR : ℝ)
    (htr : s.trigger_ = true) (hm : s.odom_mode_ = 1 ∨ s.odom_mode_ = 2) :
    ∃ s', updatePoseArc ⟨Real.cos, Real.sin⟩ now s dL dR = some s' ∧
      Real.sqrt ((s'.posX_ - (s.posX_ - turnRadius s.config_ dL dR * Real.sin s.heading_)) ^ 2 +
        (s'.posY_ - (s.posY_ + turnRadius s.config_ dL dR * Real.cos s.heading_)) ^ 2) =
        abs (turnRadius s.config_ dL dR) ∧
      Real.sqrt ((s.posX_ - (s.posX_ - turnRadius s.config_ dL dR * Real.sin s.heading_)) ^ 2 +
        (s.posY_ - (s.posY_ + turnRadius s.config_ dL dR * Real.cos s.heading_)) ^ 2) =
        abs (turnRadius s.config_ dL dR) ∧
      (turnRadius s.config_ dL dR = 0 → s'.posX_ = s.posX_ ∧ s'.posY_ = s.posY_) := by
  have key : ∀ (R th w x y : ℝ),
      ((Real.cos w * (x - (x - R * Real.sin th)) - Real.sin w * (y - (y + R * Real.cos th)) +
          (x - R * Real.sin th)) - (x - R * Real.sin th)) ^ 2 +
        ((Real.sin w * (x - (x - R * Real.sin th)) + Real.cos w * (y - (y + R * Real.cos th)) +
          (y + R * Real.cos th)) - (y + R * Real.cos th)) ^ 2 = R ^ 2 := by
    intro R th w x y
    have h1 := Real.sin_sq_add_cos_sq th
    have h2 := Real.sin_sq_add_cos_sq w
    have e : ((Real.cos w * (x - (x - R * Real.sin th)) - Real.sin w * (y - (y + R * Real.cos th)) +
          (x - R * Real.sin th)) - (x - R * Real.sin th)) ^ 2 +
        ((Real.sin w * (x - (x - R * Real.sin th)) + Real.cos w * (y - (y + R * Real.cos th)) +
          (y + R * Real.cos th)) - (y + R * Real.cos th)) ^ 2 =
        R ^ 2 * ((Real.sin w ^ 2 + Real.cos w ^ 2) * (Real.sin th ^ 2 + Real.cos th ^ 2)) := by
      ring
    rw [e, h1, h2]
    ring
  have key0 : ∀ (R th x y : ℝ),
      (x - (x - R * Real.sin th)) ^ 2 + (y - (y + R * Real.cos th)) ^ 2 = R ^ 2 := by
    intro R th x y
    have h1 := Real.sin_sq_add_cos_sq th
    have e : (x - (x - R * Real.sin th)) ^ 2 + (y - (y + R * Real.cos th)) ^ 2 =
        R ^ 2 * (Real.sin th ^ 2 + Real.cos th ^ 2) := by ring
    rw [e, h1]
    ring
  obtain ⟨w, hw⟩ : ∃ w, turnAngle s.config_ s.odom_mode_ (now - s.timestamp_) dL dR = some w := by
    unfold turnAngle
    rcases hm with hm | hm <;> simp [hm]
  unfold updatePoseArc
  simp only [htr, hw, Bool.not_true, Bool.false_eq_true, if_false]
  refine ⟨_, rfl, ?_, ?_, ?_⟩
  · rw [key, Real.sqrt_sq_eq_abs]
  · rw [key0, Real.sqrt_sq_eq_abs]
  · intro hR
    simp only [hR]
    constructor <;> ring

/-- Witness for C13 (amended): mode 1, running pose `(2, 3, 0)`, the frame
`F1:a:b:c:d:1000:1000:500:500` processed at the stored timestamp. -/
theorem parse_zero_dt_identity_witness :
    ∃ s', parse castDigits (specUtils Real.pi) ⟨Real.cos, Real.sin⟩ 0
        "F1:a:b:c:d:1000:1000:500:500" (mkState (mkConfig (1 : ℝ) 1 1 1 4) 1 true 2 3 0) =
        some s' ∧
      s'.posX_ = 2 ∧ s'.posY_ = 3 ∧ s'.heading_ = 0 :=
  parse_zero_dt_identity castDigits (specUtils Real.pi) 0 "F1:a:b:c:d:1000:1000:500:500"
    (mkState (mkConfig (1 : ℝ) 1 1 1 4) 1 true 2 3 0) sample_frame_valid rfl
    (by simp [mkState]) (by simp [mkState])

/-- Witness for C16: the valid frame `F1:a:b:c:d:1000:1000:500:500` and the
failing line `F1:a:b:c:d:1000:1000:500:x`, both from the start-up state. -/
theorem parse_previous_displacement_witness :
    (∃ s', parse castDigits sampleUtils sampleTrig 1 "F1:a:b:c:d:1000:1000:500:500"
        (mkState (mkConfig (1 : ℚ) 1 1 1 4) 2 false 0 0 0) = some s' ∧
      s'.config_.left_motor.position_meter_prev = s'.config_.left_motor.position_meter_curr ∧
      s'.config_.right_motor.position_meter_prev =
        s'.config_.right_motor.position_meter_curr) ∧
    (∃ s', parse castDigits sampleUtils sampleTrig 1 "F1:a:b:c:d:1000:1000:500:x"
        (mkState (mkConfig (1 : ℚ) 1 1 1 4) 2 false 0 0 0) = some s' ∧
      s'.config_.left_motor.position_meter_prev = 0 ∧
      s'.config_.right_motor.position_meter_prev = 0) :=
  ⟨(parse_previous_displacement castDigits sampleUtils sampleTrig 1
      "F1:a:b:c:d:1000:1000:500:500" (mkState (mkConfig (1 : ℚ) 1 1 1 4) 2 false 0 0 0)).1
      sample_frame_valid,
    (parse_previous_displacement castDigits sampleUtils sampleTrig 1
      "F1:a:b:c:d:1000:1000:500:x" (mkState (mkConfig (1 : ℚ) 1 1 1 4) 2 false 0 0 0)).2
      (by simp [ValidFrame, split, castDigits])⟩

/-- Witness for C18: two valid frames in mode 2 from the running pose `(0, 0, 0)`
with wheel separation 1. -/
theorem read_serial_mode2_heading_witness :
    ∃ s', read_serial castDigits (specUtils Real.pi) ⟨Real.cos, Real.sin⟩
        [(1, "F1:a:b:c:d:1000:1000:500:500"), (2, "F1:a:b:c:d:0:0:0:4")]
        (mkState (mkConfig (1 : ℝ) 1 1 1 4) 2 true 0 0 0) = some s' ∧
      s'.heading_ = (mkState (mkConfig (1 : ℝ) 1 1 1 4) 2 true 0 0 0).heading_ +
        ((s'.config_.right_motor.position_meter_curr -
            (mkState (mkConfig (1 : ℝ) 1 1 1 4) 2 true 0 0
              0).config_.right_motor.position_meter_prev) -
          (s'.config_.left_motor.position_meter_curr -
            (mkState (mkConfig (1 : ℝ) 1 1 1 4) 2 true 0 0
              0).config_.left_motor.position_meter_prev)) /
          (mkState (mkConfig (1 : ℝ) 1 1 1 4) 2 true 0 0 0).config_.WIDTH :=
  read_serial_mode2_heading castDigits (specUtils Real.pi) ⟨Real.cos, Real.sin⟩
    [(1, "F1:a:b:c:d:1000:1000:500:500"), (2, "F1:a:b:c:d:0:0:0:4")]
    (mkState (mkConfig (1 : ℝ) 1 1 1 4) 2 true 0 0 0) (by simp)
    (by
      intro f hf
      simp only [List.mem_cons, List.mem_singleton, List.not_mem_nil, or_false] at hf
      rcases hf with hf | hf
      · rw [hf]
        exact sample_frame_valid
      · rw [hf]
        refine ⟨by decide, ?_, ?_, ?_, ?_⟩ <;> simp [split, castDigits])
    rfl rfl (by norm_num [mkState, mkConfig])

/-- Witness for C19: mode 2, wheel separation 1, pose `(0, 0, 0)`, `dL = 0`,
`dR = 1`. -/
theorem updatePoseArc_rigid_rotation_witness :
    ∃ s', updatePoseArc ⟨Real.cos, Real.sin⟩ 1 (mkState (mkConfig (1 : ℝ) 1 1 1 4) 2 true 0 0 0)
        0 1 = some s' ∧
      Real.sqrt ((s'.posX_ - (0 - 1 / 2 * Real.sin 0)) ^ 2 +
        (s'.posY_ - (0 + 1 / 2 * Real.cos 0)) ^ 2) = 1 / 2 := by
  obtain ⟨s', h1, h2, _, _⟩ := updatePoseArc_rigid_rotation 1
    (mkState (mkConfig (1 : ℝ) 1 1 1 4) 2 true 0 0 0) 0 1 rfl (Or.inr rfl)
  have hR : turnRadius (mkState (mkConfig (1 : ℝ) 1 1 1 4) 2 true 0 0 0).config_ 0 1 = 1 / 2 := by
    norm_num [turnRadius, mkState, mkConfig]
  rw [hR] at h2
  refine ⟨s', h1, ?_⟩
  have e : abs (1 / 2 : ℝ) = 1 / 2 := abs_of_pos (by norm_num)
  rw [e] at h2
  exact h2

/-- Witness for C20: the frame `F1:a:b:c:d:1000:1000:500:500` at elapsed time 1
from the running pose `(0, 0, 0)`. -/
theorem parse_mode0_mode1_same_heading_witness :
    ∃ s0 s1, parse castDigits sampleUtils sampleTrig 1 "F1:a:b:c:d:1000:1000:500:500"
        { mkState (mkConfig (1 : ℚ) 1 1 1 4) 0 true 0 0 0 with odom_mode_ := 0 } = some s0 ∧
      parse castDigits sampleUtils sampleTrig 1 "F1:a:b:c:d:1000:1000:500:500"
        { mkState (mkConfig (1 : ℚ) 1 1 1 4) 0 true 0 0 0 with odom_mode_ := 1 } = some s1 ∧
      s0.heading_ = s1.heading_ := by
  obtain ⟨s0, s1, h0, h1, _, _, h⟩ := parse_mode0_mode1_same_heading castDigits sampleUtils
    sampleTrig 1 "F1:a:b:c:d:1000:1000:500:500" (mkState (mkConfig (1 : ℚ) 1 1 1 4) 0 true 0 0 0)
    1000 1000 sample_frame_valid (by simp [split, castDigits]) (by simp [split, castDigits]) rfl
  exact ⟨s0, s1, h0, h1, h⟩

end OdometryTheorems

end Clober
